import Mathlib

/-!
# servicob: postal code to weather pipeline

A shallow embedding of `src/servicob.go` (the HTTP handler `GetWeatherByCep`
with its helpers `validaCEP`, `buscaCidade`, `buscaClima`, `convKELtoC`,
`convKELtoF`) together with the library behaviour the handler relies on
(regular-expression matching, JSON decoding, binary64 arithmetic, the
response writer), followed by the theorems about it.

Go strings are modelled by `String`, read as the sequence of runes obtained by
UTF-8 decoding (an invalid byte decodes to U+FFFD, as in Go's `regexp` and
`encoding/json`).

A run of the handler is a function of the request and of an environment that
fixes what the outside world answers: the outcome of `http.Get` for each URL,
the table of `unicode.ToLower`, and whether the compiler fuses a multiply-add.
The handler returns the response writer as it leaves it and the list of what
it did, in order: spans started and ended, lines logged, requests sent, bodies
closed. A deferred call is the last event of its function on every return
path.

Not modelled: the trace context carried by the request headers (a span is
known by its name only), the time stamps of the log lines, and the exporter
set up by `initTracer2`.
-/

namespace Servicob

/-! ## Regular expressions (the fragment of Go's `regexp` used by `validaCEP`) -/

/-- Regular expressions: the constructs that occur in the pattern `^[0-9]{8}$`.
Without the `m` flag, `^` and `$` match at the beginning and at the end of the
text only. -/
inductive Re where
  | beginText : Re
  | endText : Re
  | range (lo hi : Char) : Re
  | rep (r : Re) (n : Nat) : Re
  | seq (r s : Re) : Re

/-- A position in the text: whether it is the beginning of the text, and the
runes that remain. -/
abbrev Pos := Bool × List Char

/-- Apply `f` to every position in turn, `n` times over. -/
def iterate (f : Pos → List Pos) : Nat → Pos → List Pos
  | 0, p => [p]
  | n + 1, p => (f p).flatMap (iterate f n)

/-- The class `[lo-hi]`: consume one rune of the class. -/
def stepRange (lo hi : Char) (p : Pos) : List Pos :=
  match p.2 with
  | [] => []
  | c :: cs => if lo.val ≤ c.val ∧ c.val ≤ hi.val then [(false, cs)] else []

/-- All positions at which a match of `r` that starts at the given position
can end. -/
def Re.run : Re → Pos → List Pos
  | .beginText, p => if p.1 then [p] else []
  | .endText, p => if p.2.isEmpty then [p] else []
  | .range lo hi, p => stepRange lo hi p
  | .rep r n, p => iterate r.run n p
  | .seq r s, p => (r.run p).flatMap s.run

/-- Whether `r` matches starting at the given position or at any later one. -/
def Re.search (r : Re) : Bool → List Char → Bool
  | start, [] => !(r.run (start, [])).isEmpty
  | start, c :: cs => !(r.run (start, c :: cs)).isEmpty || r.search false cs

/-- Go's `regexp.MatchString` for an already parsed pattern: whether the text
contains any match of the pattern. -/
def matchString (r : Re) (s : String) : Bool :=
  r.search true s.data

/-- The pattern `^[0-9]{8}$`. -/
def cepPattern : Re :=
  .seq .beginText (.seq (.rep (.range '0' '9') 8) .endText)

/-- Go: `func validaCEP(cep string) bool`. -/
def validaCEP (cep : String) : Bool :=
  matchString cepPattern cep

/-- Whether a rune lies in the class `[lo-hi]`. -/
def inRange (lo hi c : Char) : Prop := lo.val ≤ c.val ∧ c.val ≤ hi.val

/-- Membership in a class is decidable. -/
instance instDecidableInRange (lo hi c : Char) : Decidable (inRange lo hi c) := by
  unfold inRange; infer_instance

/-! ## JSON texts (the decoder of `encoding/json`) -/

/-- A decoded JSON value. A number keeps its decimal value exactly:
`(-1)^neg * mant * 10^exp10`. -/
inductive JSON where
  | null : JSON
  | bool (b : Bool) : JSON
  | num (neg : Bool) (mant : Nat) (exp10 : Int) : JSON
  | str (s : String) : JSON
  | arr (xs : List JSON) : JSON
  | obj (kvs : List (String × JSON)) : JSON

/-- JSON insignificant whitespace: space, tab, carriage return, line feed. -/
def isSpace (c : Char) : Bool :=
  c = ' ' || c = '\t' || c = '\r' || c = '\n'

/-- Drop leading whitespace. -/
def skipSpace : List Char → List Char
  | [] => []
  | c :: cs => if isSpace c then skipSpace cs else c :: cs

/-- The value of a decimal digit. -/
def digitVal (c : Char) : Option Nat :=
  if '0'.val ≤ c.val ∧ c.val ≤ '9'.val then some (c.toNat - 48) else none

/-- The value of a hexadecimal digit. -/
def hexVal (c : Char) : Option Nat :=
  if '0'.val ≤ c.val ∧ c.val ≤ '9'.val then some (c.toNat - 48)
  else if 'a'.val ≤ c.val ∧ c.val ≤ 'f'.val then some (c.toNat - 87)
  else if 'A'.val ≤ c.val ∧ c.val ≤ 'F'.val then some (c.toNat - 55)
  else none

/-- Read a run of decimal digits: the number read so far, how many digits were
read, and the rest. -/
def readDigits : Nat → Nat → List Char → Nat × Nat × List Char
  | acc, n, [] => (acc, n, [])
  | acc, n, c :: cs =>
      match digitVal c with
      | some d => readDigits (acc * 10 + d) (n + 1) cs
      | none => (acc, n, c :: cs)

/-- Four hexadecimal digits, as after `\u`. -/
def getu4 : List Char → Option (Nat × List Char)
  | a :: b :: c :: d :: rest =>
      match hexVal a, hexVal b, hexVal c, hexVal d with
      | some x, some y, some z, some w => some (((x * 16 + y) * 16 + z) * 16 + w, rest)
      | _, _, _, _ => none
  | _ => none

/-- The replacement rune U+FFFD (`unicode.ReplacementChar`). -/
def runeError : Char := Char.ofNat 0xFFFD

/-- The rune with the given code point; U+FFFD when there is none. -/
def runeOf (n : Nat) : Char :=
  if h : n.isValidChar then Char.ofNatAux n h else runeError

/-- The body of a string literal after its opening quote: the decoded runes and
the rest after the closing quote. Control characters and unknown escapes are
syntax errors; a `\u` escape that is half of a surrogate pair without its other
half decodes to U+FFFD. -/
def readString : Nat → List Char → List Char → Option (List Char × List Char)
  | 0, _, _ => none
  | _ + 1, _, [] => none
  | fuel + 1, acc, c :: cs =>
      if c = '"' then some (acc.reverse, cs)
      else if c.val < 32 then none
      else if c = '\\' then
        match cs with
        | [] => none
        | e :: rest =>
            if e = '"' then readString fuel ('"' :: acc) rest
            else if e = '\\' then readString fuel ('\\' :: acc) rest
            else if e = '/' then readString fuel ('/' :: acc) rest
            else if e = 'b' then readString fuel ('\x08' :: acc) rest
            else if e = 'f' then readString fuel ('\x0c' :: acc) rest
            else if e = 'n' then readString fuel ('\n' :: acc) rest
            else if e = 'r' then readString fuel ('\r' :: acc) rest
            else if e = 't' then readString fuel ('\t' :: acc) rest
            else if e = 'u' then
              match getu4 rest with
              | none => none
              | some (hi, rest1) =>
                  if 0xD800 ≤ hi ∧ hi < 0xE000 then
                    match rest1 with
                    | '\\' :: 'u' :: rest2 =>
                        match getu4 rest2 with
                        | some (lo, rest3) =>
                            if hi < 0xDC00 ∧ 0xDC00 ≤ lo ∧ lo < 0xE000 then
                              readString fuel
                                (runeOf ((hi - 0xD800) * 1024 + (lo - 0xDC00) + 0x10000) :: acc)
                                rest3
                            else readString fuel (runeError :: acc) rest1
                        | none => readString fuel (runeError :: acc) rest1
                    | _ => readString fuel (runeError :: acc) rest1
                  else readString fuel (runeOf hi :: acc) rest1
            else none
      else readString fuel (c :: acc) cs

/-- A number literal `-?(0|[1-9][0-9]*)(\.[0-9]+)?([eE][+-]?[0-9]+)?`. -/
def readNumber (cs : List Char) : Option (JSON × List Char) :=
  let (neg, cs1) := match cs with
    | '-' :: rest => (true, rest)
    | _ => (false, cs)
  let intPart : Option (Nat × List Char) := match cs1 with
    | '0' :: rest => some (0, rest)
    | _ => match readDigits 0 0 cs1 with
      | (_, 0, _) => none
      | (v, _, rest) => some (v, rest)
  match intPart with
  | none => none
  | some (iv, cs2) =>
    let fracPart : Option (Nat × Nat × List Char) := match cs2 with
      | '.' :: rest => match readDigits iv 0 rest with
        | (_, 0, _) => none
        | r => some r
      | _ => some (iv, 0, cs2)
    match fracPart with
    | none => none
    | some (mant, nfrac, cs3) =>
      let expPart : Option (Int × List Char) :=
        let digits (sign : Int) (rest : List Char) : Option (Int × List Char) :=
          match readDigits 0 0 rest with
          | (_, 0, _) => none
          | (v, _, rest1) => some (sign * v, rest1)
        match cs3 with
        | 'e' :: '+' :: rest => digits 1 rest
        | 'e' :: '-' :: rest => digits (-1) rest
        | 'e' :: rest => digits 1 rest
        | 'E' :: '+' :: rest => digits 1 rest
        | 'E' :: '-' :: rest => digits (-1) rest
        | 'E' :: rest => digits 1 rest
        | _ => some (0, cs3)
      match expPart with
      | none => none
      | some (ex, cs4) => some (.num neg mant (ex - nfrac), cs4)

/-- The decoder's limit on nesting (`maxNestingDepth`). -/
def maxNestingDepth : Nat := 10000

mutual
/-- One JSON value, with leading whitespace; `depth` counts the enclosing
arrays and objects. -/
def readValue : Nat → Nat → List Char → Option (JSON × List Char)
  | 0, _, _ => none
  | fuel + 1, depth, cs =>
      match skipSpace cs with
      | 'n' :: 'u' :: 'l' :: 'l' :: rest => some (.null, rest)
      | 't' :: 'r' :: 'u' :: 'e' :: rest => some (.bool true, rest)
      | 'f' :: 'a' :: 'l' :: 's' :: 'e' :: rest => some (.bool false, rest)
      | '"' :: rest =>
          match readString (rest.length + 1) [] rest with
          | some (s, rest1) => some (.str (String.mk s), rest1)
          | none => none
      | '[' :: rest =>
          if maxNestingDepth < depth + 1 then none
          else match skipSpace rest with
            | ']' :: rest1 => some (.arr [], rest1)
            | _ => match readElements fuel (depth + 1) [] rest with
              | some (xs, rest1) => some (.arr xs, rest1)
              | none => none
      | '{' :: rest =>
          if maxNestingDepth < depth + 1 then none
          else match skipSpace rest with
            | '}' :: rest1 => some (.obj [], rest1)
            | _ => match readMembers fuel (depth + 1) [] rest with
              | some (kvs, rest1) => some (.obj kvs, rest1)
              | none => none
      | other => readNumber other

/-- The elements of a non-empty array, up to and including the closing
bracket. -/
def readElements : Nat → Nat → List JSON → List Char → Option (List JSON × List Char)
  | 0, _, _, _ => none
  | fuel + 1, depth, acc, cs =>
      match readValue fuel depth cs with
      | none => none
      | some (v, rest) =>
          match skipSpace rest with
          | ',' :: rest1 => readElements fuel depth (v :: acc) rest1
          | ']' :: rest1 => some ((v :: acc).reverse, rest1)
          | _ => none

/-- The members of a non-empty object, up to and including the closing
brace. -/
def readMembers : Nat → Nat → List (String × JSON) → List Char →
    Option (List (String × JSON) × List Char)
  | 0, _, _, _ => none
  | fuel + 1, depth, acc, cs =>
      match skipSpace cs with
      | '"' :: rest =>
          match readString (rest.length + 1) [] rest with
          | none => none
          | some (k, rest1) =>
              match skipSpace rest1 with
              | ':' :: rest2 =>
                  match readValue fuel depth rest2 with
                  | none => none
                  | some (v, rest3) =>
                      match skipSpace rest3 with
                      | ',' :: rest4 => readMembers fuel depth ((String.mk k, v) :: acc) rest4
                      | '}' :: rest4 => some (((String.mk k, v) :: acc).reverse, rest4)
                      | _ => none
              | _ => none
      | _ => none
end

/-- A whole JSON text: one value, with nothing but whitespace around it. -/
def parseJSON (dados : String) : Option JSON :=
  match readValue (2 * dados.length + 2) 0 dados.data with
  | some (v, rest) => if (skipSpace rest).isEmpty then some v else none
  | none => none

/-! ## Binary64 arithmetic (`float64`) -/

/-- An IEEE 754 binary64 value. `finite neg m e` is `(-1)^neg * m * 2^e`, kept
canonical: `2^52 ≤ m < 2^53` with `-1074 ≤ e ≤ 971`, or `m < 2^52` with
`e = -1074` (zeros and subnormals). -/
inductive F64 where
  | finite (neg : Bool) (m : Nat) (e : Int) : F64
  | inf (neg : Bool) : F64
  | nan : F64
  deriving DecidableEq

/-- The position of the leading bit: `floorLog2 n n` is the largest `k` with
`2^k ≤ n` (0 for `n = 0`). -/
def floorLog2 : Nat → Nat → Nat
  | 0, _ => 0
  | fuel + 1, n => if n < 2 then 0 else floorLog2 fuel (n / 2) + 1

/-- The binary64 value nearest to `(-1)^neg * p / q` (`q > 0`), ties to the
even significand; infinite on overflow. -/
def roundRat (neg : Bool) (p q : Nat) : F64 :=
  if p = 0 then .finite neg 0 (-1074)
  else
    let d : Int := (floorLog2 p p : Int) - (floorLog2 q q : Int)
    let lead : Int := if q * 2 ^ d.toNat ≤ p * 2 ^ (-d).toNat then d else d - 1
    let e : Int := max (lead - 52) (-1074)
    let n := p * 2 ^ (-e).toNat
    let dn := q * 2 ^ e.toNat
    let m0 := n / dn
    let r := n % dn
    let m := if dn < 2 * r ∨ (2 * r = dn ∧ m0 % 2 = 1) then m0 + 1 else m0
    let e1 : Int := if m = 2 ^ 53 then e + 1 else e
    let m1 := if m = 2 ^ 53 then 2 ^ 52 else m
    if 971 < e1 then .inf neg else .finite neg m1 e1

/-- The binary64 value nearest to `s * 2^e`. An exact zero takes the sign
`zneg`. -/
def roundDyadic (zneg : Bool) (s : Int) (e : Int) : F64 :=
  if s = 0 then .finite zneg 0 (-1074)
  else roundRat (decide (s < 0)) (s.natAbs * 2 ^ e.toNat) (2 ^ (-e).toNat)

/-- The signed significand of a finite value. -/
def signed (neg : Bool) (m : Nat) : Int := if neg then -(m : Int) else m

/-- Binary64 negation. -/
def F64.neg : F64 → F64
  | .finite n m e => .finite (!n) m e
  | .inf n => .inf (!n)
  | .nan => .nan

/-- Binary64 addition. -/
def F64.add : F64 → F64 → F64
  | .finite n1 m1 e1, .finite n2 m2 e2 =>
      let e := min e1 e2
      roundDyadic (n1 && n2)
        (signed n1 m1 * 2 ^ (e1 - e).toNat + signed n2 m2 * 2 ^ (e2 - e).toNat) e
  | .finite _ _ _, .inf n => .inf n
  | .inf n, .finite _ _ _ => .inf n
  | .inf n1, .inf n2 => if n1 = n2 then .inf n1 else .nan
  | _, _ => .nan

/-- Binary64 subtraction. -/
def F64.sub (x y : F64) : F64 := x.add y.neg

/-- Binary64 multiplication. -/
def F64.mul : F64 → F64 → F64
  | .finite n1 m1 e1, .finite n2 m2 e2 =>
      roundDyadic (n1 != n2) (signed (n1 != n2) (m1 * m2)) (e1 + e2)
  | .finite n1 m1 _, .inf n2 => if m1 = 0 then .nan else .inf (n1 != n2)
  | .inf n1, .finite n2 m2 _ => if m2 = 0 then .nan else .inf (n1 != n2)
  | .inf n1, .inf n2 => .inf (n1 != n2)
  | _, _ => .nan

/-- Fused multiply-add: `x * y + z` rounded once. -/
def F64.fma : F64 → F64 → F64 → F64
  | .finite n1 m1 e1, .finite n2 m2 e2, .finite n3 m3 e3 =>
      let e := min (e1 + e2) e3
      roundDyadic ((n1 != n2) && n3)
        (signed (n1 != n2) (m1 * m2) * 2 ^ (e1 + e2 - e).toNat + signed n3 m3 * 2 ^ (e3 - e).toNat) e
  | .finite _ _ _, .finite _ _ _, z => z
  | x, y, z => (x.mul y).add z

/-- Binary64 division. -/
def F64.div : F64 → F64 → F64
  | .finite n1 m1 e1, .finite n2 m2 e2 =>
      if m2 = 0 then (if m1 = 0 then .nan else .inf (n1 != n2))
      else roundRat (n1 != n2) (m1 * 2 ^ (e1 - e2).toNat) (m2 * 2 ^ (e2 - e1).toNat)
  | .finite n1 _ _, .inf n2 => .finite (n1 != n2) 0 (-1074)
  | .inf n1, .finite n2 _ _ => .inf (n1 != n2)
  | _, _ => .nan

/-- Go's `math.Round`: the nearest integer, halves away from zero; zeros,
infinities and NaN are returned unchanged. -/
def F64.round : F64 → F64
  | .finite n m e =>
      if 0 ≤ e then .finite n m e
      else
        let d := 2 ^ (-e).toNat
        roundRat n (if d ≤ 2 * (m % d) then m / d + 1 else m / d) 1
  | x => x

/-- The binary64 value of a decimal literal `(-1)^neg * mant * 10^exp10`. -/
def F64.ofDecimal (neg : Bool) (mant : Nat) (exp10 : Int) : F64 :=
  roundRat neg (mant * 10 ^ exp10.toNat) (10 ^ (-exp10).toNat)

/-- The binary64 value of a natural number. -/
def F64.ofNat (n : Nat) : F64 := roundRat false n 1

/-! ## Decoding into the program's types (`json.Unmarshal`) -/

/-- Go: `type CEP struct`. -/
structure CEP where
  Cidade : String
  deriving DecidableEq

/-- Go: `type Temperatura struct`. -/
structure Temperatura where
  Temp : F64
  TempMin : F64
  TempMax : F64
  Pressao : F64
  Umidade : F64
  deriving DecidableEq

/-- Go: `type Clima struct`. -/
structure Clima where
  Main : Temperatura
  deriving DecidableEq

/-- Go: `type WeatherResponse struct`. -/
structure WeatherResponse where
  City : String
  TempC : F64
  TempF : F64
  TempK : F64
  deriving DecidableEq

/-- Go: `type ErrorResponse struct`. -/
structure ErrorResponse where
  Erro : Bool
  deriving DecidableEq

/-- The errors the program can meet. -/
inductive GoError where
  /-- `http.Get` failed: no response was obtained. -/
  | transport (msg : String) : GoError
  /-- `ioutil.ReadAll` failed while reading the body. -/
  | read (msg : String) : GoError
  /-- The text is not JSON (`*json.SyntaxError`). -/
  | invalidJSON : GoError
  /-- A JSON value does not fit the Go field (`*json.UnmarshalTypeError`). -/
  | unmarshalType (field : String) : GoError
  /-- A float that JSON cannot express (`*json.UnsupportedValueError`). -/
  | unsupportedValue : GoError
  /-- The error `buscaCidade` builds with `fmt.Errorf`. -/
  | respostaComErro : GoError
  deriving DecidableEq

/-- The text of an error (`err.Error()`), abridged. -/
def GoError.Error : GoError → String
  | .transport msg => msg
  | .read msg => msg
  | .invalidJSON => "invalid character"
  | .unmarshalType field => "json: cannot unmarshal into Go struct field " ++ field
  | .unsupportedValue => "json: unsupported value"
  | .respostaComErro => "A resposta apresentou erro: \x7btrue\x7d"

/-- Case folding of one rune as the decoder folds member names: ASCII letters
to upper case, the Kelvin sign to `K`, the long s to `S`. -/
def foldRune (c : Char) : Char :=
  if 'a'.val ≤ c.val ∧ c.val ≤ 'z'.val then Char.ofNat (c.toNat - 32)
  else if c = Char.ofNat 0x212A then 'K'
  else if c = Char.ofNat 0x17F then 'S'
  else c

/-- Whether a member name of the text selects the field tagged `name`: the
decoder takes an exact match, or else a match up to case folding. -/
def equalFold (name key : String) : Bool :=
  name.data.map foldRune = key.data.map foldRune

/-- The first error met is the one that is kept (`d.saveError`). -/
def saveError (saved : Option GoError) (err : GoError) : Option GoError :=
  match saved with
  | some e => some e
  | none => some err

/-- What the decoder returns: the syntax error, or the saved error, or the
decoded value. -/
def finishDecode {α : Type} (r : α × Option GoError) : Except GoError α :=
  match r.2 with
  | some e => .error e
  | none => .ok r.1

/-- One member of an object decoded into a `CEP`. -/
def storeCEP (st : CEP × Option GoError) (kv : String × JSON) : CEP × Option GoError :=
  if equalFold "localidade" kv.1 then
    match kv.2 with
    | .str s => ({ st.1 with Cidade := s }, st.2)
    | .null => st
    | _ => (st.1, saveError st.2 (.unmarshalType "CEP.localidade"))
  else st

/-- Go: `json.Unmarshal(dados, &c)` with `var c CEP`. -/
def unmarshalCEP (dados : String) : Except GoError CEP :=
  match parseJSON dados with
  | none => .error .invalidJSON
  | some (.obj kvs) => finishDecode (kvs.foldl storeCEP ({ Cidade := "" }, none))
  | some .null => .ok { Cidade := "" }
  | some _ => .error (.unmarshalType "CEP")

/-- One member of an object decoded into an `ErrorResponse`. -/
def storeErro (st : ErrorResponse × Option GoError) (kv : String × JSON) :
    ErrorResponse × Option GoError :=
  if equalFold "erro" kv.1 then
    match kv.2 with
    | .bool b => ({ st.1 with Erro := b }, st.2)
    | .null => st
    | _ => (st.1, saveError st.2 (.unmarshalType "ErrorResponse.erro"))
  else st

/-- Go: `json.Unmarshal(dados, &erroResponse)` with `var erroResponse ErrorResponse`. -/
def unmarshalErro (dados : String) : Except GoError ErrorResponse :=
  match parseJSON dados with
  | none => .error .invalidJSON
  | some (.obj kvs) => finishDecode (kvs.foldl storeErro ({ Erro := false }, none))
  | some .null => .ok { Erro := false }
  | some _ => .error (.unmarshalType "ErrorResponse")

/-- A JSON value decoded into a `float64` field: a number is converted with
`strconv.ParseFloat` (out of range is an error), `null` leaves the field as it
is, anything else is an error. -/
def storeFloat (field : String) (old : F64) (saved : Option GoError) (v : JSON) :
    F64 × Option GoError :=
  match v with
  | .num neg mant exp10 =>
      match F64.ofDecimal neg mant exp10 with
      | .finite n m e => (.finite n m e, saved)
      | _ => (old, saveError saved (.unmarshalType field))
  | .null => (old, saved)
  | _ => (old, saveError saved (.unmarshalType field))

/-- One member of an object decoded into a `Temperatura`. -/
def storeTemperatura (st : Temperatura × Option GoError) (kv : String × JSON) :
    Temperatura × Option GoError :=
  if equalFold "temp" kv.1 then
    let r := storeFloat "Temperatura.temp" st.1.Temp st.2 kv.2
    ({ st.1 with Temp := r.1 }, r.2)
  else if equalFold "temp_min" kv.1 then
    let r := storeFloat "Temperatura.temp_min" st.1.TempMin st.2 kv.2
    ({ st.1 with TempMin := r.1 }, r.2)
  else if equalFold "temp_max" kv.1 then
    let r := storeFloat "Temperatura.temp_max" st.1.TempMax st.2 kv.2
    ({ st.1 with TempMax := r.1 }, r.2)
  else if equalFold "pressure" kv.1 then
    let r := storeFloat "Temperatura.pressure" st.1.Pressao st.2 kv.2
    ({ st.1 with Pressao := r.1 }, r.2)
  else if equalFold "humidity" kv.1 then
    let r := storeFloat "Temperatura.humidity" st.1.Umidade st.2 kv.2
    ({ st.1 with Umidade := r.1 }, r.2)
  else st

/-- One member of an object decoded into a `Clima`. -/
def storeClima (st : Clima × Option GoError) (kv : String × JSON) : Clima × Option GoError :=
  if equalFold "main" kv.1 then
    match kv.2 with
    | .obj kvs =>
        let r := kvs.foldl storeTemperatura (st.1.Main, st.2)
        ({ st.1 with Main := r.1 }, r.2)
    | .null => st
    | _ => (st.1, saveError st.2 (.unmarshalType "Clima.main"))
  else st

/-- The positive zero of binary64. -/
def F64.zero : F64 := .finite false 0 (-1074)

/-- Go: `json.Unmarshal(dados, &clima)` with `var clima Clima`. -/
def unmarshalClima (dados : String) : Except GoError Clima :=
  match parseJSON dados with
  | none => .error .invalidJSON
  | some (.obj kvs) =>
      finishDecode (kvs.foldl storeClima
        ({ Main := { Temp := .zero, TempMin := .zero, TempMax := .zero, Pressao := .zero,
                     Umidade := .zero } }, none))
  | some .null =>
      .ok { Main := { Temp := .zero, TempMin := .zero, TempMax := .zero, Pressao := .zero,
                      Umidade := .zero } }
  | some _ => .error (.unmarshalType "Clima")

/-- Equality of results is decidable. -/
instance instDecidableEqExcept {ε α : Type} [DecidableEq ε] [DecidableEq α] :
    DecidableEq (Except ε α)
  | .ok a, .ok b => if h : a = b then isTrue (by rw [h]) else isFalse (by intro h1; cases h1; exact h rfl)
  | .error a, .error b =>
      if h : a = b then isTrue (by rw [h]) else isFalse (by intro h1; cases h1; exact h rfl)
  | .ok _, .error _ => isFalse (by intro h; cases h)
  | .error _, .ok _ => isFalse (by intro h; cases h)

/-! ## The world outside the handler -/

/-- What `ioutil.ReadAll(resp.Body)` gives. -/
inductive BodyRead where
  | fail (msg : String) : BodyRead
  | ok (dados : String) : BodyRead
  deriving DecidableEq

/-- What `http.Get` gives: a transport error, or a response with its status
code and its body still to be read. -/
inductive GetResult where
  | fail (msg : String) : GetResult
  | resp (status : Nat) (body : BodyRead) : GetResult
  deriving DecidableEq

/-- The environment of one request. -/
structure Env where
  /-- The outcome of `http.Get` for each URL. -/
  get : String → GetResult
  /-- The rune mapping `unicode.ToLower`, whose table is not part of the
  program. -/
  toLower : Char → Char
  /-- Whether the compiler fuses `x*y + z` into one multiply-add, as the Go
  specification allows (it does on arm64, not on amd64). -/
  fused : Bool

/-- What the handler does besides writing the response, in order. -/
inductive Event where
  /-- A span was started (`tracer.Start`). -/
  | spanStart (name : String) : Event
  /-- A span was ended (`span.End`). -/
  | spanEnd (name : String) : Event
  /-- A line written with `log.Println`. -/
  | logLine (msg : String) : Event
  /-- A line written with `fmt.Println(msg, err)`. -/
  | printLine (msg : String) (err : GoError) : Event
  /-- An outbound `http.Get`. -/
  | httpGet (url : String) : Event
  /-- `resp.Body.Close()` on the response of the given URL. -/
  | bodyClose (url : String) : Event
  deriving DecidableEq

/-- One piece of the response body. -/
inductive Chunk where
  /-- Bytes written as they are. -/
  | text (s : String) : Chunk
  /-- The JSON document `json.NewEncoder(w).Encode` writes for a
  `WeatherResponse`: an object with the members `city`, `temp_C`, `temp_F` and
  `temp_K` holding these values, and a line feed. -/
  | weather (resp : WeatherResponse) : Chunk
  deriving DecidableEq

/-- The state of an `http.ResponseWriter`: the header map, the status line once
written together with the header that went out with it, and the body written
so far. -/
structure ResponseWriter where
  header : List (String × String)
  wrote : Option (Nat × List (String × String))
  body : List Chunk
  deriving DecidableEq

/-- The writer the server hands to a handler. -/
def ResponseWriter.fresh : ResponseWriter :=
  { header := [], wrote := none, body := [] }

/-- Go: `w.Header().Set(key, value)`. -/
def ResponseWriter.setHeader (w : ResponseWriter) (key value : String) : ResponseWriter :=
  { w with header := (w.header.filter fun kv => kv.1 ≠ key) ++ [(key, value)] }

/-- Go: `w.Header().Del(key)`. -/
def ResponseWriter.delHeader (w : ResponseWriter) (key : String) : ResponseWriter :=
  { w with header := w.header.filter fun kv => kv.1 ≠ key }

/-- Go: `w.WriteHeader(code)`; a second call changes nothing. -/
def ResponseWriter.writeHeader (w : ResponseWriter) (code : Nat) : ResponseWriter :=
  match w.wrote with
  | some _ => w
  | none => { w with wrote := some (code, w.header) }

/-- Go: `w.Write`; the first write sends status 200 when none was sent. -/
def ResponseWriter.write (w : ResponseWriter) (c : Chunk) : ResponseWriter :=
  let w1 := w.writeHeader 200
  { w1 with body := w1.body ++ [c] }

/-- The status the client receives: the one written, or 200 when the handler
returned without writing one. -/
def ResponseWriter.status (w : ResponseWriter) : Nat :=
  match w.wrote with
  | some (code, _) => code
  | none => 200

/-- The value of a header of the response as sent. -/
def ResponseWriter.sentHeader (w : ResponseWriter) (key : String) : Option String :=
  match w.wrote with
  | some (_, h) => (h.find? fun kv => kv.1 = key).map Prod.snd
  | none => none

/-- Go: `http.Error(w, error, code)`. -/
def httpError (w : ResponseWriter) (error : String) (code : Nat) : ResponseWriter :=
  ((((w.delHeader "Content-Length").setHeader "Content-Type" "text/plain; charset=utf-8").setHeader
    "X-Content-Type-Options" "nosniff").writeHeader code).write (.text (error ++ "\n"))

/-! ## Library functions on strings -/

/-- A hexadecimal digit, upper case. -/
def upperHex (n : Nat) : Char :=
  if n < 10 then Char.ofNat (48 + n) else Char.ofNat (55 + n)

/-- A hexadecimal digit, lower case. -/
def lowerHex (n : Nat) : Char :=
  if n < 10 then Char.ofNat (48 + n) else Char.ofNat (87 + n)

/-- A JSON string literal as `json.Marshal` writes it. -/
def jsonQuote (s : String) : String :=
  let esc (c : Char) : List Char :=
    if c = '"' then ['\\', '"']
    else if c = '\\' then ['\\', '\\']
    else if c = '\n' then ['\\', 'n']
    else if c = '\r' then ['\\', 'r']
    else if c = '\t' then ['\\', 't']
    else if c.val < 32 ∨ c = '<' ∨ c = '>' ∨ c = '&' then
      ['\\', 'u', '0', '0', lowerHex (c.toNat / 16), lowerHex (c.toNat % 16)]
    else if c = Char.ofNat 0x2028 then "\\u2028".data
    else if c = Char.ofNat 0x2029 then "\\u2029".data
    else [c]
  String.mk ('"' :: s.data.flatMap esc ++ ['"'])

/-- Go: `json.Marshal(map[string]string{"message": message})`; a map of strings
always encodes. -/
def jsonMarshalMessage (message : String) : Except GoError String :=
  .ok ("\x7b" ++ jsonQuote "message" ++ ":" ++ jsonQuote message ++ "\x7d")

/-- Go: `strings.ToLower`. -/
def stringsToLower (env : Env) (s : String) : String :=
  String.mk (s.data.map env.toLower)

/-- The UTF-8 encoding of a rune. -/
def utf8Bytes (c : Char) : List Nat :=
  let n := c.toNat
  if n < 0x80 then [n]
  else if n < 0x800 then [0xC0 + n / 64, 0x80 + n % 64]
  else if n < 0x10000 then [0xE0 + n / 4096, 0x80 + n / 64 % 64, 0x80 + n % 64]
  else [0xF0 + n / 262144, 0x80 + n / 4096 % 64, 0x80 + n / 64 % 64, 0x80 + n % 64]

/-- Go: `url.QueryEscape`. -/
def urlQueryEscape (s : String) : String :=
  let esc (c : Char) : List Char :=
    if c = ' ' then ['+']
    else if c.isAlphanum ∨ c = '-' ∨ c = '_' ∨ c = '.' ∨ c = '~' then [c]
    else (utf8Bytes c).flatMap fun b => ['%', upperHex (b / 16), upperHex (b % 16)]
  String.mk (s.data.flatMap esc)

/-! ## The program -/

/-- Go: `func convKELtoC(tempK float64) float64`. -/
def convKELtoC (tempK : F64) : F64 :=
  tempK.sub (F64.ofDecimal false 27315 (-2))

/-- Go: `func convKELtoF(tempK float64) float64`. The flag says whether the
compiler fuses the multiplication and the addition. -/
def convKELtoF (fused : Bool) (tempK : F64) : F64 :=
  let x := tempK.sub (F64.ofDecimal false 27315 (-2))
  if fused then F64.fma x (F64.ofDecimal false 18 (-1)) (F64.ofNat 32)
  else (x.mul (F64.ofDecimal false 18 (-1))).add (F64.ofNat 32)

/-- The URL `buscaCidade` requests. -/
def urlCidade (cep : String) : String :=
  "https://viacep.com.br/ws/" ++ cep ++ "/json/"

/-- Go: the part of `buscaCidade` after the body has been read. -/
def decodeCidade (dados : String) : Except GoError CEP :=
  match unmarshalErro dados with
  | .ok erroResponse =>
      if erroResponse.Erro then .error .respostaComErro else unmarshalCEP dados
  | .error _ => unmarshalCEP dados

/-- Go: the part of `buscaCidade` after `http.Get` has returned a response:
the body is read and then decoded. -/
def lerCidade : BodyRead → Except GoError CEP
  | .fail msg => .error (.read msg)
  | .ok dados => decodeCidade dados

/-- Go: `func buscaCidade(cep string, r *http.Request) (*CEP, error)`. The
result and what the call did, in order; the deferred calls run last, the latest
deferred first. -/
def buscaCidade (env : Env) (cep : String) : Except GoError CEP × List Event :=
  let opening : List Event :=
    [.spanStart "buscaCidade", .logLine "Span buscaCidade iniciado", .httpGet (urlCidade cep)]
  match env.get (urlCidade cep) with
  | .fail msg => (.error (.transport msg), opening ++ [.spanEnd "buscaCidade"])
  | .resp _ body =>
      (lerCidade body, opening ++ [.bodyClose (urlCidade cep), .spanEnd "buscaCidade"])

/-- The URL `buscaClima` requests, for a city already escaped. -/
def urlClima (cidade : String) : String :=
  "https://api.openweathermap.org/data/2.5/weather?q=" ++ cidade ++
    ",br&appid=904020cdcc44973b1dd0810487a25068"

/-- Go: the part of `buscaClima` after `http.Get` has returned a response:
the body is read and then decoded. -/
def lerClima : BodyRead → Except GoError Clima
  | .fail msg => .error (.read msg)
  | .ok dados => unmarshalClima dados

/-- Go: `func buscaClima(cidade string, r *http.Request) (*Clima, error)`. -/
def buscaClima (env : Env) (cidade : String) : Except GoError Clima × List Event :=
  let url := urlClima (urlQueryEscape cidade)
  let opening : List Event :=
    [.spanStart "buscaClima", .logLine "Span buscaClima iniciado", .httpGet url]
  match env.get url with
  | .fail msg => (.error (.transport msg), opening ++ [.spanEnd "buscaClima"])
  | .resp _ body => (lerClima body, opening ++ [.bodyClose url, .spanEnd "buscaClima"])

/-- Whether a value is a finite number. -/
def F64.isFinite : F64 → Bool
  | .finite _ _ _ => true
  | _ => false

/-- Go: `json.NewEncoder(w).Encode(resp)`: the document is written in one
piece, and nothing is written when a number is not finite. -/
def encodeWeather (w : ResponseWriter) (resp : WeatherResponse) :
    ResponseWriter × Option GoError :=
  if resp.TempC.isFinite && resp.TempF.isFinite && resp.TempK.isFinite then
    (w.write (.weather resp), none)
  else (w, some .unsupportedValue)

/-- An inbound request: the value of the path variable `cep`
(`mux.Vars(r)["cep"]`). -/
structure Request where
  cep : String
  deriving DecidableEq

/-- One temperature rounded as the handler does: `math.Round(x*10) / 10`. -/
def roundTenth (x : F64) : F64 :=
  ((x.mul (F64.ofNat 10)).round).div (F64.ofNat 10)

/-- Go: `func GetWeatherByCep(w http.ResponseWriter, r *http.Request)`. The
writer as the handler leaves it and what the handler did, in order;
`span.End()` is deferred and so comes last on every path. -/
def GetWeatherByCep (env : Env) (w : ResponseWriter) (r : Request) :
    ResponseWriter × List Event :=
  let opening : List Event :=
    [.spanStart "GetWeatherByCep", .logLine "Span GetWeatherByCep iniciado"]
  let cep := r.cep
  if !validaCEP cep then
    match jsonMarshalMessage "invalid zipcode" with
    | .error err => (httpError w err.Error 500, opening ++ [.spanEnd "GetWeatherByCep"])
    | .ok js =>
        (((w.setHeader "Content-Type" "application/json").writeHeader 422).write (.text js),
          opening ++ [.spanEnd "GetWeatherByCep"])
  else
    let cidade := buscaCidade env cep
    match cidade.1 with
    | .error _ =>
        match jsonMarshalMessage "can not find zipcode" with
        | .error err =>
            (httpError w err.Error 500, opening ++ cidade.2 ++ [.spanEnd "GetWeatherByCep"])
        | .ok js =>
            (((w.setHeader "Content-Type" "application/json").writeHeader 404).write (.text js),
              opening ++ cidade.2 ++ [.spanEnd "GetWeatherByCep"])
    | .ok dadosCidade =>
        let found : List Event := [.logLine ("Cidade encontrada: " ++ dadosCidade.Cidade)]
        let clima := buscaClima env (stringsToLower env dadosCidade.Cidade)
        match clima.1 with
        | .error err =>
            (w, opening ++ cidade.2 ++ found ++ clima.2 ++
              [.printLine "Erro na busca do clima:" err, .spanEnd "GetWeatherByCep"])
        | .ok clima1 =>
            let tempC := roundTenth (convKELtoC clima1.Main.Temp)
            let tempF := roundTenth (convKELtoF env.fused clima1.Main.Temp)
            let tempK := roundTenth clima1.Main.Temp
            let resp : WeatherResponse :=
              { City := dadosCidade.Cidade, TempC := tempC, TempF := tempF, TempK := tempK }
            ((encodeWeather (w.setHeader "Content-Type" "application/json") resp).1,
              opening ++ cidade.2 ++ found ++ clima.2 ++
                [.logLine ("Clima encontrado para a cidade: " ++ dadosCidade.Cidade),
                 .spanEnd "GetWeatherByCep"])

/-! ## Span discipline -/

/-- Replay the span events of a log against the stack of open spans, innermost
first: a span may be started only while no span of its name is open, and
ended only while it is the innermost open span. The result is the stack left
open, or `none` when an event breaks the discipline. -/
def replaySpans : List Event → List String → Option (List String)
  | [], stack => some stack
  | .spanStart name :: es, stack =>
      if name ∈ stack then none else replaySpans es (name :: stack)
  | .spanEnd name :: es, stack =>
      match stack with
      | [] => none
      | top :: below => if top = name then replaySpans es below else none
  | _ :: es, stack => replaySpans es stack

/-- Whether an event starts or ends a span. -/
def Event.isSpan : Event → Bool
  | .spanStart _ => true
  | .spanEnd _ => true
  | _ => false

/-- The span events of a log, in order. -/
def spanEvents (log : List Event) : List Event :=
  log.filter Event.isSpan

/-! ## The specification's own notions -/

/-- The string values a JSON object gives for `localidade`, in order: the
values of the members named `localidade` (whatever the case of the letters)
that are strings. -/
def localidadeStrings (kvs : List (String × JSON)) : List String :=
  kvs.filterMap fun kv =>
    if equalFold "localidade" kv.1 then
      match kv.2 with
      | .str s => some s
      | _ => none
    else none

/-- The nearest integer to an exact number, halves away from zero. -/
def halfAway (x : ℚ) : ℤ :=
  if 0 ≤ x then ⌊x + 1 / 2⌋ else -⌊-x + 1 / 2⌋

/-- The rounding `r` of the specification, on exact numbers: the nearest
integer to `10 * x`, ties away from zero, divided by 10. -/
def specRound (x : ℚ) : ℚ :=
  (halfAway (10 * x) : ℚ) / 10

/-- The exact value of a finite binary64 number (0 for the others). -/
def F64.toRat : F64 → ℚ
  | .finite neg m e => (if neg then -1 else 1) * (m : ℚ) * (2 : ℚ) ^ e
  | _ => 0

/-- The binary64 value nearest to an exact number. -/
def F64.ofRat (q : ℚ) : F64 :=
  roundRat (decide (q < 0)) q.num.natAbs q.den

/-! ## Concrete worlds -/

/-- Scenarios A to C of the specification: the postal lookup knows 01310100 as
São Paulo and reports 99999999 as unknown, the weather service gives 300.15 K
for São Paulo, and every other request fails in transport. -/
def mundoCenarios (fused : Bool) : Env where
  get url :=
    if url = urlCidade "01310100" then
      .resp 200 (.ok "\x7b\"localidade\":\"São Paulo\"\x7d")
    else if url = urlCidade "99999999" then .resp 200 (.ok "\x7b\"erro\":true\x7d")
    else if url = urlClima "s%C3%A3o+paulo" then
      .resp 200 (.ok "\x7b\"main\":\x7b\"temp\":300.15\x7d\x7d")
    else .fail "dial tcp: i/o timeout"
  toLower := Char.toLower
  fused := fused

/-- Scenario D: the postal lookup answers, the weather service times out. -/
def mundoClimaFora : Env where
  get url :=
    if url = urlCidade "01310100" then
      .resp 200 (.ok "\x7b\"localidade\":\"São Paulo\"\x7d")
    else .fail "context deadline exceeded"
  toLower := Char.toLower
  fused := false

/-- A postal lookup that fails in each of four ways, one per postal code: no
response, a body that cannot be read, the error flag, and a body that is not
JSON. -/
def mundoFalhas : Env where
  get url :=
    if url = urlCidade "10000001" then .fail "dial tcp: i/o timeout"
    else if url = urlCidade "10000002" then .resp 200 (.fail "unexpected EOF")
    else if url = urlCidade "10000003" then .resp 200 (.ok "\x7b\"erro\":true\x7d")
    else if url = urlCidade "10000004" then .resp 200 (.ok "<html>")
    else .fail "no such host"
  toLower := Char.toLower
  fused := false

/-- A postal lookup that answers the empty object. -/
def mundoCidadeVazia : Env where
  get url :=
    if url = urlCidade "01310100" then .resp 200 (.ok "\x7b\x7d")
    else .fail "dial tcp: i/o timeout"
  toLower := Char.toLower
  fused := false

/-- A postal lookup that answers with status 500 and a location in the
body. -/
def mundoStatus500 : Env where
  get url :=
    if url = urlCidade "01310100" then
      .resp 500 (.ok "\x7b\"localidade\":\"São Paulo\"\x7d")
    else if url = urlClima "s%C3%A3o+paulo" then
      .resp 200 (.ok "\x7b\"main\":\x7b\"temp\":300.15\x7d\x7d")
    else .fail "dial tcp: i/o timeout"
  toLower := Char.toLower
  fused := false

/-- A weather service that reports 273.1 K. -/
def mundoQuaseZero (fused : Bool) : Env where
  get url :=
    if url = urlCidade "01310100" then
      .resp 200 (.ok "\x7b\"localidade\":\"São Paulo\"\x7d")
    else if url = urlClima "s%C3%A3o+paulo" then
      .resp 200 (.ok "\x7b\"main\":\x7b\"temp\":273.1\x7d\x7d")
    else .fail "dial tcp: i/o timeout"
  toLower := Char.toLower
  fused := fused

/-- A weather service that reports `1e308` K, a number `float64` holds but
whose tenfold it does not. -/
def mundoTransbordo : Env where
  get url :=
    if url = urlCidade "01310100" then
      .resp 200 (.ok "\x7b\"localidade\":\"São Paulo\"\x7d")
    else if url = urlClima "s%C3%A3o+paulo" then
      .resp 200 (.ok "\x7b\"main\":\x7b\"temp\":1e308\x7d\x7d")
    else .fail "dial tcp: i/o timeout"
  toLower := Char.toLower
  fused := false

/-! ## Theorems -/

/-! ### The validator -/

/-- Matching a class `n` times over consumes `n` runes of the class. -/
theorem iterate_stepRange (lo hi : Char) (n : Nat) (p : Pos) :
    iterate (stepRange lo hi) n p =
      if n ≤ p.2.length ∧ ∀ c ∈ p.2.take n, inRange lo hi c then
        [(p.1 && n == 0, p.2.drop n)] else [] := by
  induction n generalizing p with
  | zero => obtain ⟨b, cs⟩ := p; simp [iterate]
  | succ n ih =>
    obtain ⟨b, cs⟩ := p
    cases cs with
    | nil => simp [iterate, stepRange]
    | cons c cs =>
      by_cases hc : lo.val ≤ c.val ∧ c.val ≤ hi.val
      · simp only [iterate, stepRange, hc, and_self, if_true, List.flatMap_cons, List.flatMap_nil,
          List.append_nil, ih]
        simp [inRange, hc]
      · simp only [iterate, stepRange, hc, if_false, List.flatMap_nil]
        rw [if_neg]
        simp only [List.take_succ_cons, List.mem_cons, forall_eq_or_imp, inRange]
        tauto

/-- Running a class is one step of the class. -/
theorem run_range (lo hi : Char) : Re.run (.range lo hi) = stepRange lo hi := by
  funext p; simp [Re.run]

/-- The pattern matches at a position exactly when it is the beginning of the
text and the text is 8 digits. -/
theorem run_cepPattern (b : Bool) (cs : List Char) :
    cepPattern.run (b, cs) =
      if b = true ∧ cs.length = 8 ∧ ∀ c ∈ cs, inRange '0' '9' c then [(false, [])] else [] := by
  cases b with
  | false => simp [cepPattern, Re.run]
  | true =>
    simp only [cepPattern, Re.run, run_range, iterate_stepRange, if_true, List.flatMap_cons,
      List.flatMap_nil, List.append_nil, true_and]
    by_cases h8 : 8 ≤ cs.length
    · by_cases hd : ∀ c ∈ cs.take 8, inRange '0' '9' c
      · simp only [h8, true_and]
        by_cases he : cs.length = 8
        · have : cs.drop 8 = [] := by simp [he]
          have ht : cs.take 8 = cs := by simp [he]
          have hd2 : ∀ c ∈ cs, inRange '0' '9' c := by rw [ht] at hd; exact hd
          simp [this, he, eq_true hd2, ht]
        · have : cs.drop 8 ≠ [] := by
            intro h; rw [List.drop_eq_nil_iff] at h; omega
          simp [this, he]
      · have : ¬ (cs.length = 8 ∧ ∀ c ∈ cs, inRange '0' '9' c) := by
          rintro ⟨he, h⟩; apply hd; intro c hc; exact h c (List.mem_of_mem_take hc)
        simp [h8, eq_false hd, this]
    · have : ¬ (cs.length = 8 ∧ ∀ c ∈ cs, inRange '0' '9' c) := by
        rintro ⟨he, h⟩; omega
      simp [h8, this]

/-- The pattern matches nowhere past the beginning of the text. -/
theorem search_false_cepPattern (cs : List Char) : cepPattern.search false cs = false := by
  induction cs with
  | nil => simp [Re.search, run_cepPattern]
  | cons c cs ih => simp [Re.search, run_cepPattern, ih]

/-- The search from the beginning of the text. -/
theorem search_true_cepPattern (cs : List Char) :
    cepPattern.search true cs = true ↔ cs.length = 8 ∧ ∀ c ∈ cs, inRange '0' '9' c := by
  cases cs with
  | nil => simp [Re.search, run_cepPattern]
  | cons c cs =>
    simp only [Re.search, run_cepPattern, search_false_cepPattern, Bool.or_false, true_and]
    split <;> simp_all

/-- C1: `validaCEP s` is true exactly when `s` is 8 characters long and every
character is an ASCII digit `0` to `9`; so a string of any other length, and a
string with any character that is not an ASCII digit, is rejected. -/
theorem validaCEP_iff_eight_digits (s : String) :
    (validaCEP s = true ↔ s.length = 8 ∧ ∀ c ∈ s.data, '0' ≤ c ∧ c ≤ '9') ∧
    (s.length ≠ 8 → validaCEP s = false) ∧
    ((∃ c ∈ s.data, ¬ ('0' ≤ c ∧ c ≤ '9')) → validaCEP s = false) := by
  have h : validaCEP s = true ↔ s.length = 8 ∧ ∀ c ∈ s.data, '0' ≤ c ∧ c ≤ '9' := by
    unfold validaCEP matchString
    rw [search_true_cepPattern]
    rfl
  refine ⟨h, ?_, ?_⟩
  · intro hl
    cases hv : validaCEP s with
    | false => rfl
    | true => exact absurd (h.1 hv).1 hl
  · rintro ⟨c, hc, hn⟩
    cases hv : validaCEP s with
    | false => rfl
    | true => exact absurd ((h.1 hv).2 c hc) hn

/-- C1 on concrete strings: an 8-digit code is accepted; a short code, a code
with a separator, with a leading space, with a trailing line feed or written
in Arabic-Indic digits is rejected. -/
theorem validaCEP_iff_eight_digits_witness :
    validaCEP "01310100" = true ∧ validaCEP "123" = false ∧ validaCEP "01310-100" = false ∧
    validaCEP "0131-100" = false ∧ validaCEP " 01310100" = false ∧
    validaCEP "01310100\n" = false ∧ validaCEP "٠١٣١٠١٠٠" = false :=
  ⟨(validaCEP_iff_eight_digits "01310100").1.2 (by decide),
   (validaCEP_iff_eight_digits "123").2.1 (by decide),
   (validaCEP_iff_eight_digits "01310-100").2.1 (by decide),
   (validaCEP_iff_eight_digits "0131-100").2.2 ⟨'-', by decide, by decide⟩,
   (validaCEP_iff_eight_digits " 01310100").2.1 (by decide),
   (validaCEP_iff_eight_digits "01310100\n").2.2 ⟨'\n', by decide, by decide⟩,
   (validaCEP_iff_eight_digits "٠١٣١٠١٠٠").2.2 ⟨'٠', by decide, by decide⟩⟩

/-! ### The handler, path by path -/

/-- The body of the 422 answer. -/
theorem jsonMarshalMessage_invalid :
    jsonMarshalMessage "invalid zipcode" = .ok "\x7b\"message\":\"invalid zipcode\"\x7d" := by
  decide

/-- The body of the 404 answer. -/
theorem jsonMarshalMessage_notFound :
    jsonMarshalMessage "can not find zipcode" =
      .ok "\x7b\"message\":\"can not find zipcode\"\x7d" := by
  decide

/-- The handler when the cep is rejected. -/
theorem handler_invalid (env : Env) (w : ResponseWriter) (r : Request)
    (h : validaCEP r.cep = false) :
    GetWeatherByCep env w r =
      (((w.setHeader "Content-Type" "application/json").writeHeader 422).write
          (.text "\x7b\"message\":\"invalid zipcode\"\x7d"),
        [.spanStart "GetWeatherByCep", .logLine "Span GetWeatherByCep iniciado",
         .spanEnd "GetWeatherByCep"]) := by
  simp [GetWeatherByCep, h, jsonMarshalMessage_invalid]

/-- C2: a request whose cep `validaCEP` rejects is answered with status 422,
content type `application/json` and the body `{"message":"invalid zipcode"}`,
and the handler makes no outbound call: it does nothing but open and end its
own span, so neither `buscaCidade` nor `buscaClima` is invoked. -/
theorem invalid_cep_unprocessable (env : Env) (r : Request) (h : validaCEP r.cep = false) :
    (GetWeatherByCep env .fresh r).1.status = 422 ∧
    (GetWeatherByCep env .fresh r).1.sentHeader "Content-Type" = some "application/json" ∧
    (GetWeatherByCep env .fresh r).1.body =
      [.text "\x7b\"message\":\"invalid zipcode\"\x7d"] ∧
    (GetWeatherByCep env .fresh r).2 =
      [.spanStart "GetWeatherByCep", .logLine "Span GetWeatherByCep iniciado",
       .spanEnd "GetWeatherByCep"] ∧
    (∀ url, Event.httpGet url ∉ (GetWeatherByCep env .fresh r).2) ∧
    Event.spanStart "buscaCidade" ∉ (GetWeatherByCep env .fresh r).2 ∧
    Event.spanStart "buscaClima" ∉ (GetWeatherByCep env .fresh r).2 := by
  rw [handler_invalid env .fresh r h]
  refine ⟨by decide, by decide, by decide, rfl, ?_, by decide, by decide⟩
  intro url; simp

/-- C2 at the input of scenario B, "123". -/
theorem invalid_cep_unprocessable_witness :
    validaCEP "123" = false ∧
    (GetWeatherByCep (mundoCenarios false) .fresh ⟨"123"⟩).1.status = 422 ∧
    (GetWeatherByCep (mundoCenarios false) .fresh ⟨"123"⟩).1.body =
      [.text "\x7b\"message\":\"invalid zipcode\"\x7d"] :=
  ⟨by decide,
   (invalid_cep_unprocessable (mundoCenarios false) ⟨"123"⟩ (by decide)).1,
   (invalid_cep_unprocessable (mundoCenarios false) ⟨"123"⟩ (by decide)).2.2.1⟩

/-- The handler when the postal lookup fails. -/
theorem handler_cidade_error (env : Env) (w : ResponseWriter) (r : Request) (err : GoError)
    (hv : validaCEP r.cep = true) (hc : (buscaCidade env r.cep).1 = .error err) :
    GetWeatherByCep env w r =
      (((w.setHeader "Content-Type" "application/json").writeHeader 404).write
          (.text "\x7b\"message\":\"can not find zipcode\"\x7d"),
        [.spanStart "GetWeatherByCep", .logLine "Span GetWeatherByCep iniciado"] ++
          (buscaCidade env r.cep).2 ++ [.spanEnd "GetWeatherByCep"]) := by
  simp [GetWeatherByCep, hv, hc, jsonMarshalMessage_notFound]

/-- The handler when the postal lookup succeeds and the weather lookup fails. -/
theorem handler_clima_error (env : Env) (w : ResponseWriter) (r : Request) (c : CEP)
    (err : GoError) (hv : validaCEP r.cep = true) (hc : (buscaCidade env r.cep).1 = .ok c)
    (hw : (buscaClima env (stringsToLower env c.Cidade)).1 = .error err) :
    GetWeatherByCep env w r =
      (w, [.spanStart "GetWeatherByCep", .logLine "Span GetWeatherByCep iniciado"] ++
          (buscaCidade env r.cep).2 ++ [.logLine ("Cidade encontrada: " ++ c.Cidade)] ++
          (buscaClima env (stringsToLower env c.Cidade)).2 ++
          [.printLine "Erro na busca do clima:" err, .spanEnd "GetWeatherByCep"]) := by
  simp [GetWeatherByCep, hv, hc, hw]

/-- The handler when both lookups succeed. -/
theorem handler_ok (env : Env) (w : ResponseWriter) (r : Request) (c : CEP) (clima : Clima)
    (hv : validaCEP r.cep = true) (hc : (buscaCidade env r.cep).1 = .ok c)
    (hw : (buscaClima env (stringsToLower env c.Cidade)).1 = .ok clima) :
    GetWeatherByCep env w r =
      ((encodeWeather (w.setHeader "Content-Type" "application/json")
          { City := c.Cidade,
            TempC := roundTenth (convKELtoC clima.Main.Temp),
            TempF := roundTenth (convKELtoF env.fused clima.Main.Temp),
            TempK := roundTenth clima.Main.Temp }).1,
        [.spanStart "GetWeatherByCep", .logLine "Span GetWeatherByCep iniciado"] ++
          (buscaCidade env r.cep).2 ++ [.logLine ("Cidade encontrada: " ++ c.Cidade)] ++
          (buscaClima env (stringsToLower env c.Cidade)).2 ++
          [.logLine ("Clima encontrado para a cidade: " ++ c.Cidade),
           .spanEnd "GetWeatherByCep"]) := by
  simp [GetWeatherByCep, hv, hc, hw]

/-- What a call of `buscaCidade` does: it starts its span, requests the postal
URL, and ends its span last, after closing the body when there is one. -/
theorem buscaCidade_events (env : Env) (cep : String) :
    (buscaCidade env cep).2 =
        [.spanStart "buscaCidade", .logLine "Span buscaCidade iniciado",
         .httpGet (urlCidade cep), .spanEnd "buscaCidade"] ∨
    (buscaCidade env cep).2 =
        [.spanStart "buscaCidade", .logLine "Span buscaCidade iniciado",
         .httpGet (urlCidade cep), .bodyClose (urlCidade cep), .spanEnd "buscaCidade"] := by
  unfold buscaCidade
  cases env.get (urlCidade cep) with
  | fail msg => left; rfl
  | resp status body => right; rfl

/-- What a call of `buscaClima` does. -/
theorem buscaClima_events (env : Env) (cidade : String) :
    (buscaClima env cidade).2 =
        [.spanStart "buscaClima", .logLine "Span buscaClima iniciado",
         .httpGet (urlClima (urlQueryEscape cidade)), .spanEnd "buscaClima"] ∨
    (buscaClima env cidade).2 =
        [.spanStart "buscaClima", .logLine "Span buscaClima iniciado",
         .httpGet (urlClima (urlQueryEscape cidade)),
         .bodyClose (urlClima (urlQueryEscape cidade)), .spanEnd "buscaClima"] := by
  unfold buscaClima
  dsimp only
  cases env.get (urlClima (urlQueryEscape cidade)) with
  | fail msg => left; rfl
  | resp status body => right; rfl

/-- C3: when the cep is valid and `buscaCidade` returns an error, whatever the
error, the handler answers with status 404, content type `application/json`
and the body `{"message":"can not find zipcode"}`; it does what `buscaCidade`
did and nothing more, so `buscaClima` is never invoked and the only outbound
request is the postal lookup. -/
theorem cidade_error_not_found (env : Env) (r : Request) (err : GoError)
    (hv : validaCEP r.cep = true) (hc : (buscaCidade env r.cep).1 = .error err) :
    (GetWeatherByCep env .fresh r).1.status = 404 ∧
    (GetWeatherByCep env .fresh r).1.sentHeader "Content-Type" = some "application/json" ∧
    (GetWeatherByCep env .fresh r).1.body =
      [.text "\x7b\"message\":\"can not find zipcode\"\x7d"] ∧
    (GetWeatherByCep env .fresh r).2 =
      [.spanStart "GetWeatherByCep", .logLine "Span GetWeatherByCep iniciado"] ++
        (buscaCidade env r.cep).2 ++ [.spanEnd "GetWeatherByCep"] ∧
    Event.spanStart "buscaClima" ∉ (GetWeatherByCep env .fresh r).2 ∧
    (∀ url, Event.httpGet url ∈ (GetWeatherByCep env .fresh r).2 → url = urlCidade r.cep) := by
  rw [handler_cidade_error env .fresh r err hv hc]
  dsimp only
  refine ⟨by decide, by decide, by decide, rfl, ?_, ?_⟩
  · rcases buscaCidade_events env r.cep with h | h <;> rw [h] <;> simp
  · intro url
    rcases buscaCidade_events env r.cep with h | h <;> rw [h] <;> simp

/-- C3 at the input of scenario C, where the postal lookup answers
`{"erro":true}`, and at one input for each other reason: no response, a body
that cannot be read, a body that is not JSON. -/
theorem cidade_error_not_found_witness :
    validaCEP "99999999" = true ∧
    (buscaCidade (mundoCenarios false) "99999999").1 = .error .respostaComErro ∧
    (GetWeatherByCep (mundoCenarios false) .fresh ⟨"99999999"⟩).1.status = 404 ∧
    (GetWeatherByCep (mundoCenarios false) .fresh ⟨"99999999"⟩).1.body =
      [.text "\x7b\"message\":\"can not find zipcode\"\x7d"] ∧
    (buscaCidade mundoFalhas "10000001").1 = .error (.transport "dial tcp: i/o timeout") ∧
    (GetWeatherByCep mundoFalhas .fresh ⟨"10000001"⟩).1.status = 404 ∧
    (buscaCidade mundoFalhas "10000002").1 = .error (.read "unexpected EOF") ∧
    (GetWeatherByCep mundoFalhas .fresh ⟨"10000002"⟩).1.status = 404 ∧
    (buscaCidade mundoFalhas "10000004").1 = .error .invalidJSON ∧
    (GetWeatherByCep mundoFalhas .fresh ⟨"10000004"⟩).1.status = 404 :=
  ⟨by decide, by decide,
   (cidade_error_not_found (mundoCenarios false) ⟨"99999999"⟩ .respostaComErro (by decide)
      (by decide)).1,
   (cidade_error_not_found (mundoCenarios false) ⟨"99999999"⟩ .respostaComErro (by decide)
      (by decide)).2.2.1,
   by decide,
   (cidade_error_not_found mundoFalhas ⟨"10000001"⟩ (.transport "dial tcp: i/o timeout")
      (by decide) (by decide)).1,
   by decide,
   (cidade_error_not_found mundoFalhas ⟨"10000002"⟩ (.read "unexpected EOF")
      (by decide) (by decide)).1,
   by decide,
   (cidade_error_not_found mundoFalhas ⟨"10000004"⟩ .invalidJSON (by decide) (by decide)).1⟩

/-- C4: on the failing input the handler returns without having written
anything. With a valid cep, a resolved city and a weather lookup that fails,
the writer is exactly as the server handed it over: no status, no header, no
body; the client is left with the implicit empty 200 response. -/
theorem clima_error_writes_nothing :
    validaCEP "01310100" = true ∧
    (buscaCidade mundoClimaFora "01310100").1 = .ok { Cidade := "São Paulo" } ∧
    (buscaClima mundoClimaFora "são paulo").1 = .error (.transport "context deadline exceeded") ∧
    (GetWeatherByCep mundoClimaFora .fresh ⟨"01310100"⟩).1 = ResponseWriter.fresh ∧
    (GetWeatherByCep mundoClimaFora .fresh ⟨"01310100"⟩).1.wrote = none ∧
    (GetWeatherByCep mundoClimaFora .fresh ⟨"01310100"⟩).1.body = [] := by
  decide

/-! ### Spans -/

/-- The span events of a call of `buscaCidade`. -/
theorem spanEvents_buscaCidade (env : Env) (cep : String) :
    spanEvents (buscaCidade env cep).2 = [.spanStart "buscaCidade", .spanEnd "buscaCidade"] := by
  rcases buscaCidade_events env cep with h | h <;> rw [h] <;> rfl

/-- The span events of a call of `buscaClima`. -/
theorem spanEvents_buscaClima (env : Env) (cidade : String) :
    spanEvents (buscaClima env cidade).2 = [.spanStart "buscaClima", .spanEnd "buscaClima"] := by
  rcases buscaClima_events env cidade with h | h <;> rw [h] <;> rfl

/-- The span events of two logs in sequence. -/
theorem spanEvents_append (a b : List Event) :
    spanEvents (a ++ b) = spanEvents a ++ spanEvents b := by
  simp [spanEvents]

/-- Only the span events matter to the replay. -/
theorem replaySpans_spanEvents (log : List Event) (stack : List String) :
    replaySpans (spanEvents log) stack = replaySpans log stack := by
  induction log generalizing stack with
  | nil => rfl
  | cons e es ih =>
    cases e with
    | spanStart name =>
      simp only [spanEvents, List.filter_cons, Event.isSpan, if_true, replaySpans]
      split
      · rfl
      · exact ih _
    | spanEnd name =>
      simp only [spanEvents, List.filter_cons, Event.isSpan, if_true, replaySpans]
      cases stack with
      | nil => rfl
      | cons top below =>
        simp only []
        split
        · exact ih _
        · rfl
    | logLine msg => simpa [spanEvents, List.filter_cons, Event.isSpan, replaySpans] using ih stack
    | printLine msg err =>
      simpa [spanEvents, List.filter_cons, Event.isSpan, replaySpans] using ih stack
    | httpGet url => simpa [spanEvents, List.filter_cons, Event.isSpan, replaySpans] using ih stack
    | bodyClose url => simpa [spanEvents, List.filter_cons, Event.isSpan, replaySpans] using ih stack

/-- The span events of a run of the handler, path by path. -/
theorem spanEvents_handler (env : Env) (r : Request) :
    (validaCEP r.cep = false ∧ spanEvents (GetWeatherByCep env .fresh r).2 =
        [.spanStart "GetWeatherByCep", .spanEnd "GetWeatherByCep"]) ∨
    (validaCEP r.cep = true ∧ (∃ err, (buscaCidade env r.cep).1 = .error err) ∧
      spanEvents (GetWeatherByCep env .fresh r).2 =
        [.spanStart "GetWeatherByCep", .spanStart "buscaCidade", .spanEnd "buscaCidade",
         .spanEnd "GetWeatherByCep"]) ∨
    (validaCEP r.cep = true ∧ (∃ c, (buscaCidade env r.cep).1 = .ok c) ∧
      spanEvents (GetWeatherByCep env .fresh r).2 =
        [.spanStart "GetWeatherByCep", .spanStart "buscaCidade", .spanEnd "buscaCidade",
         .spanStart "buscaClima", .spanEnd "buscaClima", .spanEnd "GetWeatherByCep"]) := by
  cases hv : validaCEP r.cep with
  | false =>
    left
    rw [handler_invalid env .fresh r hv]
    exact ⟨rfl, rfl⟩
  | true =>
    right
    cases hc : (buscaCidade env r.cep).1 with
    | error err =>
      left
      rw [handler_cidade_error env .fresh r err hv hc]
      refine ⟨rfl, ⟨err, rfl⟩, ?_⟩
      simp only [spanEvents_append, spanEvents_buscaCidade]
      rfl
    | ok c =>
      right
      refine ⟨rfl, ⟨c, rfl⟩, ?_⟩
      cases hw : (buscaClima env (stringsToLower env c.Cidade)).1 with
      | error err =>
        rw [handler_clima_error env .fresh r c err hv hc hw]
        simp only [spanEvents_append, spanEvents_buscaCidade, spanEvents_buscaClima]
        rfl
      | ok clima =>
        rw [handler_ok env .fresh r c clima hv hc hw]
        simp only [spanEvents_append, spanEvents_buscaCidade, spanEvents_buscaClima]
        rfl

/-- The last event of a call of `buscaCidade`. -/
theorem getLast_buscaCidade (env : Env) (cep : String) :
    (buscaCidade env cep).2.getLast? = some (.spanEnd "buscaCidade") := by
  rcases buscaCidade_events env cep with h | h <;> rw [h] <;> rfl

/-- The last event of a call of `buscaClima`. -/
theorem getLast_buscaClima (env : Env) (cidade : String) :
    (buscaClima env cidade).2.getLast? = some (.spanEnd "buscaClima") := by
  rcases buscaClima_events env cidade with h | h <;> rw [h] <;> rfl

/-- C9: in every execution of the handler, on each exit path, every span that
was started is ended exactly once. The span events of a run are, in order:
handler start and end when validation fails; handler start, `buscaCidade`
start and end, handler end when the postal lookup fails; and handler start,
`buscaCidade` start and end, `buscaClima` start and end, handler end when the
postal lookup succeeds (whether the weather lookup fails or not). Replayed
against a stack, every end closes the innermost open span and none is left
open. Each call of a stage function starts its span once and ends it once, as
the last thing it does before it returns. -/
theorem spans_ended_exactly_once (env : Env) (r : Request) :
    replaySpans (GetWeatherByCep env .fresh r).2 [] = some [] ∧
    ((validaCEP r.cep = false ∧ spanEvents (GetWeatherByCep env .fresh r).2 =
        [.spanStart "GetWeatherByCep", .spanEnd "GetWeatherByCep"]) ∨
     (validaCEP r.cep = true ∧ (∃ err, (buscaCidade env r.cep).1 = .error err) ∧
      spanEvents (GetWeatherByCep env .fresh r).2 =
        [.spanStart "GetWeatherByCep", .spanStart "buscaCidade", .spanEnd "buscaCidade",
         .spanEnd "GetWeatherByCep"]) ∨
     (validaCEP r.cep = true ∧ (∃ c, (buscaCidade env r.cep).1 = .ok c) ∧
      spanEvents (GetWeatherByCep env .fresh r).2 =
        [.spanStart "GetWeatherByCep", .spanStart "buscaCidade", .spanEnd "buscaCidade",
         .spanStart "buscaClima", .spanEnd "buscaClima", .spanEnd "GetWeatherByCep"])) ∧
    (∀ cep, spanEvents (buscaCidade env cep).2 =
        [.spanStart "buscaCidade", .spanEnd "buscaCidade"] ∧
      (buscaCidade env cep).2.getLast? = some (.spanEnd "buscaCidade")) ∧
    (∀ cidade, spanEvents (buscaClima env cidade).2 =
        [.spanStart "buscaClima", .spanEnd "buscaClima"] ∧
      (buscaClima env cidade).2.getLast? = some (.spanEnd "buscaClima")) := by
  refine ⟨?_, spanEvents_handler env r,
    fun cep => ⟨spanEvents_buscaCidade env cep, getLast_buscaCidade env cep⟩,
    fun cidade => ⟨spanEvents_buscaClima env cidade, getLast_buscaClima env cidade⟩⟩
  rw [← replaySpans_spanEvents]
  rcases spanEvents_handler env r with ⟨_, h⟩ | ⟨_, _, h⟩ | ⟨_, _, h⟩ <;> rw [h] <;> decide

/-- C10: when the cep is valid and the postal lookup yields the city `c`, the
handler calls `buscaClima` with `strings.ToLower(c)`, the runes of `c` mapped
one by one by `unicode.ToLower` and nothing else changed: what the handler
does next is exactly what that call does, and the weather URL it requests is
built from the lower-cased city. The city of the response document, whenever
one is written, is `c` itself. -/
theorem clima_called_with_lowercase_city (env : Env) (r : Request) (c : CEP)
    (hv : validaCEP r.cep = true) (hc : (buscaCidade env r.cep).1 = .ok c) :
    (∃ tail, (GetWeatherByCep env .fresh r).2 =
      [.spanStart "GetWeatherByCep", .logLine "Span GetWeatherByCep iniciado"] ++
        (buscaCidade env r.cep).2 ++ [.logLine ("Cidade encontrada: " ++ c.Cidade)] ++
        (buscaClima env (stringsToLower env c.Cidade)).2 ++ tail ∧
      ∀ name, Event.spanStart name ∉ tail ∧ ∀ url, Event.httpGet url ∉ tail) ∧
    (stringsToLower env c.Cidade).data = c.Cidade.data.map env.toLower ∧
    Event.httpGet (urlClima (urlQueryEscape (stringsToLower env c.Cidade))) ∈
      (GetWeatherByCep env .fresh r).2 ∧
    (∀ url, Event.httpGet url ∈ (GetWeatherByCep env .fresh r).2 →
      url = urlCidade r.cep ∨ url = urlClima (urlQueryEscape (stringsToLower env c.Cidade))) ∧
    (∀ resp, Chunk.weather resp ∈ (GetWeatherByCep env .fresh r).1.body →
      resp.City = c.Cidade) ∧
    (∀ clima, (buscaClima env (stringsToLower env c.Cidade)).1 = .ok clima →
      (roundTenth (convKELtoC clima.Main.Temp)).isFinite = true →
      (roundTenth (convKELtoF env.fused clima.Main.Temp)).isFinite = true →
      (roundTenth clima.Main.Temp).isFinite = true →
      ∃ resp, (GetWeatherByCep env .fresh r).1.body = [.weather resp] ∧
        resp.City = c.Cidade) := by
  cases hw : (buscaClima env (stringsToLower env c.Cidade)).1 with
  | error err =>
    rw [handler_clima_error env .fresh r c err hv hc hw]
    refine ⟨⟨_, rfl, ?_⟩, rfl, ?_, ?_, ?_, ?_⟩
    · intro name; simp
    · rcases buscaClima_events env (stringsToLower env c.Cidade) with h2 | h2 <;>
        rw [h2] <;> simp
    · intro url
      rcases buscaCidade_events env r.cep with h | h <;>
        rcases buscaClima_events env (stringsToLower env c.Cidade) with h2 | h2 <;>
        rw [h, h2] <;> simp
    · intro resp; simp [ResponseWriter.fresh]
    · intro clima h; cases h
  | ok clima =>
    rw [handler_ok env .fresh r c clima hv hc hw]
    refine ⟨⟨_, rfl, ?_⟩, rfl, ?_, ?_, ?_, ?_⟩
    · intro name; simp
    · rcases buscaClima_events env (stringsToLower env c.Cidade) with h2 | h2 <;>
        rw [h2] <;> simp
    · intro url
      rcases buscaCidade_events env r.cep with h | h <;>
        rcases buscaClima_events env (stringsToLower env c.Cidade) with h2 | h2 <;>
        rw [h, h2] <;> simp
    · intro resp
      simp only [encodeWeather]
      split <;>
        simp [ResponseWriter.fresh, ResponseWriter.write, ResponseWriter.writeHeader,
          ResponseWriter.setHeader]
      intro h; rw [h]
    · intro clima1 h h1 h2 h3
      cases h
      refine ⟨{ City := c.Cidade,
                TempC := roundTenth (convKELtoC clima.Main.Temp),
                TempF := roundTenth (convKELtoF env.fused clima.Main.Temp),
                TempK := roundTenth clima.Main.Temp }, ?_, rfl⟩
      simp [encodeWeather, h1, h2, h3, ResponseWriter.fresh, ResponseWriter.write,
        ResponseWriter.writeHeader, ResponseWriter.setHeader]

/-- C10 at the input of scenario A: the city `São Paulo` is looked up as
`são paulo`, requested as `s%C3%A3o+paulo`, and answered as `São Paulo`. -/
theorem clima_called_with_lowercase_city_witness :
    validaCEP "01310100" = true ∧
    (buscaCidade (mundoCenarios false) "01310100").1 = .ok { Cidade := "São Paulo" } ∧
    stringsToLower (mundoCenarios false) "São Paulo" = "são paulo" ∧
    urlQueryEscape "são paulo" = "s%C3%A3o+paulo" ∧
    Event.httpGet (urlClima (urlQueryEscape (stringsToLower (mundoCenarios false) "São Paulo"))) ∈
      (GetWeatherByCep (mundoCenarios false) .fresh ⟨"01310100"⟩).2 ∧
    (∀ resp, Chunk.weather resp ∈ (GetWeatherByCep (mundoCenarios false) .fresh
      ⟨"01310100"⟩).1.body → resp.City = "São Paulo") :=
  ⟨by decide, by decide, by decide, by decide,
   (clima_called_with_lowercase_city (mundoCenarios false) ⟨"01310100"⟩
      { Cidade := "São Paulo" } (by decide) (by decide)).2.2.1,
   (clima_called_with_lowercase_city (mundoCenarios false) ⟨"01310100"⟩
      { Cidade := "São Paulo" } (by decide) (by decide)).2.2.2.2.1⟩

/-! ### The postal lookup -/

/-- The city a `CEP` holds after one more member is decoded. -/
theorem storeCEP_cidade (st : CEP × Option GoError) (kv : String × JSON) :
    (storeCEP st kv).1.Cidade = ((localidadeStrings [kv]).getLast?).getD st.1.Cidade := by
  unfold storeCEP localidadeStrings
  by_cases h : equalFold "localidade" kv.1 = true
  · cases hv : kv.2 <;> simp [h, hv]
  · simp [h]

/-- The city a `CEP` holds after the members of an object are decoded: the last
string the object gives for `localidade`, or what it held before. -/
theorem foldl_storeCEP_cidade (kvs : List (String × JSON)) (st : CEP × Option GoError) :
    (kvs.foldl storeCEP st).1.Cidade = ((localidadeStrings kvs).getLast?).getD st.1.Cidade := by
  induction kvs generalizing st with
  | nil => simp [localidadeStrings]
  | cons kv kvs ih =>
    rw [List.foldl_cons, ih, storeCEP_cidade]
    have happ : localidadeStrings (kv :: kvs) = localidadeStrings [kv] ++ localidadeStrings kvs := by
      simp [localidadeStrings, List.filterMap_cons]
      split <;> simp
    rw [happ, List.getLast?_append]
    cases (localidadeStrings kvs).getLast? <;> simp

/-- What a successful decoding of a `CEP` returns. -/
theorem unmarshalCEP_ok (dados : String) (c : CEP) (h : unmarshalCEP dados = .ok c) :
    (parseJSON dados = some .null ∧ c.Cidade = "") ∨
    (∃ kvs, parseJSON dados = some (.obj kvs) ∧
      c.Cidade = ((localidadeStrings kvs).getLast?).getD "") := by
  unfold unmarshalCEP at h
  cases hp : parseJSON dados with
  | none => simp [hp] at h
  | some v =>
    cases v with
    | null =>
      simp [hp] at h
      left; exact ⟨rfl, by rw [← h]⟩
    | obj kvs =>
      right
      refine ⟨kvs, rfl, ?_⟩
      simp only [hp, finishDecode] at h
      have hc := foldl_storeCEP_cidade kvs ({ Cidade := "" }, none)
      cases hs : (kvs.foldl storeCEP ({ Cidade := "" }, none)).2 with
      | some e => simp [hs] at h
      | none =>
        simp [hs] at h
        rw [← h]; exact hc
    | bool b => simp [hp] at h
    | num n m e => simp [hp] at h
    | str s => simp [hp] at h
    | arr xs => simp [hp] at h

/-- The result of `buscaCidade` once the body has been read. -/
theorem buscaCidade_resp (env : Env) (cep : String) (status : Nat) (body : BodyRead)
    (hget : env.get (urlCidade cep) = .resp status body) :
    (buscaCidade env cep).1 = lerCidade body := by
  simp [buscaCidade, hget]

/-- A successful `buscaCidade` has read a body and decoded it. -/
theorem buscaCidade_ok (env : Env) (cep : String) (c : CEP)
    (hok : (buscaCidade env cep).1 = .ok c) :
    ∃ status dados, env.get (urlCidade cep) = .resp status (.ok dados) ∧
      unmarshalCEP dados = .ok c := by
  cases hget : env.get (urlCidade cep) with
  | fail msg => simp [buscaCidade, hget] at hok
  | resp status body =>
    rw [buscaCidade_resp env cep status body hget] at hok
    cases body with
    | fail msg => simp [lerCidade] at hok
    | ok dados =>
      refine ⟨status, dados, rfl, ?_⟩
      simp only [lerCidade, decodeCidade] at hok
      cases he : unmarshalErro dados with
      | error e => simpa [he] using hok
      | ok er =>
        simp only [he] at hok
        split at hok
        · cases hok
        · exact hok

/-- C6, as stated, fails: the postal lookup answers `{}`, and `buscaCidade`
returns successfully with an empty `Cidade`. -/
theorem cidade_vazia_counterexample :
    mundoCidadeVazia.get (urlCidade "01310100") = .resp 200 (.ok "\x7b\x7d") ∧
    (buscaCidade mundoCidadeVazia "01310100").1 = .ok { Cidade := "" } := by
  decide

/-- C6, amended: when `buscaCidade` returns successfully, the body was read and
is the JSON `null` or a JSON object, and the returned `Cidade` is the last
string the object gives for `localidade` (member names compared without regard
to case), or the empty string when it gives none; so `Cidade` is non-empty
exactly when the body is an object whose last `localidade` string is
non-empty. -/
theorem cidade_is_last_localidade (env : Env) (cep : String) (c : CEP)
    (hok : (buscaCidade env cep).1 = .ok c) :
    ∃ status dados, env.get (urlCidade cep) = .resp status (.ok dados) ∧
      ((parseJSON dados = some .null ∧ c.Cidade = "") ∨
       (∃ kvs, parseJSON dados = some (.obj kvs) ∧
         c.Cidade = ((localidadeStrings kvs).getLast?).getD "")) ∧
      (c.Cidade ≠ "" ↔
        ∃ kvs v, parseJSON dados = some (.obj kvs) ∧
          (localidadeStrings kvs).getLast? = some v ∧ v ≠ "") := by
  obtain ⟨status, dados, hget, hdec⟩ := buscaCidade_ok env cep c hok
  refine ⟨status, dados, hget, unmarshalCEP_ok dados c hdec, ?_⟩
  rcases unmarshalCEP_ok dados c hdec with ⟨hp, hc⟩ | ⟨kvs, hp, hc⟩
  · constructor
    · intro h; exact absurd hc h
    · rintro ⟨kvs, v, hp2, _, _⟩
      rw [hp] at hp2; cases hp2
  · constructor
    · intro h
      cases hl : (localidadeStrings kvs).getLast? with
      | none => rw [hl] at hc; exact absurd hc h
      | some v =>
        rw [hl] at hc
        refine ⟨kvs, v, hp, hl, ?_⟩
        intro hv; apply h; rw [hc]; exact hv
    · rintro ⟨kvs2, v, hp2, hl, hv⟩
      rw [hp] at hp2
      cases hp2
      rw [hl] at hc
      rw [hc]; exact hv

/-- C6, amended, at the input of scenario A: the body
`{"localidade":"São Paulo"}` gives the non-empty city `São Paulo`. -/
theorem cidade_is_last_localidade_witness :
    (buscaCidade (mundoCenarios false) "01310100").1 = .ok { Cidade := "São Paulo" } ∧
    localidadeStrings [("localidade", .str "São Paulo")] = ["São Paulo"] ∧
    ∃ status dados, (mundoCenarios false).get (urlCidade "01310100") = .resp status (.ok dados) ∧
      ((parseJSON dados = some .null ∧ ({ Cidade := "São Paulo" } : CEP).Cidade = "") ∨
       (∃ kvs, parseJSON dados = some (.obj kvs) ∧
         ({ Cidade := "São Paulo" } : CEP).Cidade = ((localidadeStrings kvs).getLast?).getD "")) ∧
      (({ Cidade := "São Paulo" } : CEP).Cidade ≠ "" ↔
        ∃ kvs v, parseJSON dados = some (.obj kvs) ∧
          (localidadeStrings kvs).getLast? = some v ∧ v ≠ "") :=
  ⟨by decide, by decide,
   cidade_is_last_localidade (mundoCenarios false) "01310100" { Cidade := "São Paulo" }
     (by decide)⟩

/-- C7: once the body has been read, `buscaCidade` classifies it in this
order. If the body decodes as an error flag whose `erro` is true, the call
fails. Otherwise, if the body does not decode as a location, the call fails
with that decoding error. Otherwise the call succeeds with the decoded
location, whose `Cidade` is the last string a JSON object body gives for
`localidade`. -/
theorem buscaCidade_classifies (env : Env) (cep : String) (status : Nat) (dados : String)
    (hget : env.get (urlCidade cep) = .resp status (.ok dados)) :
    (unmarshalErro dados = .ok { Erro := true } →
      (buscaCidade env cep).1 = .error .respostaComErro) ∧
    (unmarshalErro dados ≠ .ok { Erro := true } →
      ∀ e, unmarshalCEP dados = .error e → (buscaCidade env cep).1 = .error e) ∧
    (unmarshalErro dados ≠ .ok { Erro := true } →
      ∀ c, unmarshalCEP dados = .ok c →
        (buscaCidade env cep).1 = .ok c ∧
        ∀ kvs, parseJSON dados = some (.obj kvs) →
          c.Cidade = ((localidadeStrings kvs).getLast?).getD "") := by
  rw [buscaCidade_resp env cep status (.ok dados) hget]
  have hrest : unmarshalErro dados ≠ .ok { Erro := true } →
      lerCidade (.ok dados) = unmarshalCEP dados := by
    intro hne
    simp only [lerCidade, decodeCidade]
    cases he : unmarshalErro dados with
    | error e => rfl
    | ok er =>
      cases er with
      | mk b =>
        cases b with
        | false => rfl
        | true => exact absurd he hne
  refine ⟨?_, ?_, ?_⟩
  · intro he
    simp [lerCidade, decodeCidade, he]
  · intro hne e hc
    rw [hrest hne, hc]
  · intro hne c hc
    refine ⟨by rw [hrest hne, hc], ?_⟩
    intro kvs hp
    rcases unmarshalCEP_ok dados c hc with ⟨hp2, _⟩ | ⟨kvs2, hp2, hcid⟩
    · rw [hp] at hp2; cases hp2
    · rw [hp] at hp2; cases hp2; exact hcid

/-- C7 on the two bodies of the specification: `{"erro":true}` fails, and
`{"localidade":"São Paulo"}` returns the city `São Paulo`. -/
theorem buscaCidade_classifies_witness :
    (mundoCenarios false).get (urlCidade "99999999") = .resp 200 (.ok "\x7b\"erro\":true\x7d") ∧
    unmarshalErro "\x7b\"erro\":true\x7d" = .ok { Erro := true } ∧
    (buscaCidade (mundoCenarios false) "99999999").1 = .error .respostaComErro ∧
    (mundoCenarios false).get (urlCidade "01310100") =
      .resp 200 (.ok "\x7b\"localidade\":\"São Paulo\"\x7d") ∧
    unmarshalErro "\x7b\"localidade\":\"São Paulo\"\x7d" ≠ .ok { Erro := true } ∧
    unmarshalCEP "\x7b\"localidade\":\"São Paulo\"\x7d" = .ok { Cidade := "São Paulo" } ∧
    (buscaCidade (mundoCenarios false) "01310100").1 = .ok { Cidade := "São Paulo" } :=
  ⟨by decide, by decide,
   (buscaCidade_classifies (mundoCenarios false) "99999999" 200 "\x7b\"erro\":true\x7d"
      (by decide)).1 (by decide),
   by decide, by decide, by decide,
   ((buscaCidade_classifies (mundoCenarios false) "01310100" 200
      "\x7b\"localidade\":\"São Paulo\"\x7d" (by decide)).2.2 (by decide)
      { Cidade := "São Paulo" } (by decide)).1⟩

/-- The status the handler leaves when both lookups succeed. -/
theorem encodeWeather_status (resp : WeatherResponse) :
    (encodeWeather (ResponseWriter.fresh.setHeader "Content-Type" "application/json")
      resp).1.status = 200 := by
  unfold encodeWeather
  split <;> rfl

set_option maxRecDepth 100000 in
/-- C8, as stated, fails: the postal lookup answers with status 500, which is
not 2xx, and a location in the body; `buscaCidade` succeeds and the handler
answers 200. -/
theorem status_500_counterexample :
    mundoStatus500.get (urlCidade "01310100") =
      .resp 500 (.ok "\x7b\"localidade\":\"São Paulo\"\x7d") ∧
    (buscaCidade mundoStatus500 "01310100").1 = .ok { Cidade := "São Paulo" } ∧
    (GetWeatherByCep mundoStatus500 .fresh ⟨"01310100"⟩).1.status = 200 := by
  refine ⟨by decide, by decide, ?_⟩
  rw [handler_ok mundoStatus500 .fresh ⟨"01310100"⟩ { Cidade := "São Paulo" }
    { Main := { Temp := F64.ofDecimal false 30015 (-2), TempMin := .zero, TempMax := .zero,
                Pressao := .zero, Umidade := .zero } } (by decide) (by decide) (by decide)]
  exact encodeWeather_status _

/-- C8, amended: `buscaCidade` does not look at the HTTP status. For a
response of any status, 2xx or not, its result is decided by the body alone:
it fails when the body cannot be read, when the body decodes as an error flag
whose `erro` is true, or when the body does not decode as a location, and
succeeds otherwise. The handler answers 404 exactly when `buscaCidade`
fails. -/
theorem buscaCidade_ignores_status (env : Env) (r : Request) (status : Nat) (body : BodyRead)
    (hv : validaCEP r.cep = true) (hget : env.get (urlCidade r.cep) = .resp status body) :
    (buscaCidade env r.cep).1 = lerCidade body ∧
    (∀ msg, body = .fail msg → (buscaCidade env r.cep).1 = .error (.read msg)) ∧
    (∀ dados, body = .ok dados → unmarshalErro dados = .ok { Erro := true } →
      (buscaCidade env r.cep).1 = .error .respostaComErro) ∧
    (∀ dados, body = .ok dados → unmarshalErro dados ≠ .ok { Erro := true } →
      (buscaCidade env r.cep).1 = unmarshalCEP dados) ∧
    ((GetWeatherByCep env .fresh r).1.status = 404 ↔
      ∃ err, (buscaCidade env r.cep).1 = .error err) := by
  have hres := buscaCidade_resp env r.cep status body hget
  refine ⟨hres, ?_, ?_, ?_, ?_⟩
  · intro msg hb; rw [hres, hb]; rfl
  · intro dados hb he
    rw [hres, hb]
    simp [lerCidade, decodeCidade, he]
  · intro dados hb hne
    rw [hres, hb]
    simp only [lerCidade, decodeCidade]
    cases he : unmarshalErro dados with
    | error e => rfl
    | ok er =>
      cases er with
      | mk b =>
        cases b with
        | false => rfl
        | true => exact absurd he hne
  · cases hc : (buscaCidade env r.cep).1 with
    | error err =>
      rw [handler_cidade_error env .fresh r err hv hc]
      constructor
      · intro _; exact ⟨err, rfl⟩
      · intro _; rfl
    | ok c =>
      constructor
      · intro h404
        exfalso
        cases hw : (buscaClima env (stringsToLower env c.Cidade)).1 with
        | error err =>
          rw [handler_clima_error env .fresh r c err hv hc hw] at h404
          dsimp only at h404
          exact absurd h404 (by decide)
        | ok clima =>
          rw [handler_ok env .fresh r c clima hv hc hw] at h404
          rw [encodeWeather_status] at h404
          exact absurd h404 (by decide)
      · rintro ⟨err, h⟩; cases h

/-- C8, amended, at a response of status 500 whose body is
`{"localidade":"São Paulo"}`. -/
theorem buscaCidade_ignores_status_witness :
    validaCEP "01310100" = true ∧
    mundoStatus500.get (urlCidade "01310100") =
      .resp 500 (.ok "\x7b\"localidade\":\"São Paulo\"\x7d") ∧
    (buscaCidade mundoStatus500 "01310100").1 =
      lerCidade (.ok "\x7b\"localidade\":\"São Paulo\"\x7d") ∧
    lerCidade (.ok "\x7b\"localidade\":\"São Paulo\"\x7d") = .ok { Cidade := "São Paulo" } :=
  ⟨by decide, by decide,
   (buscaCidade_ignores_status mundoStatus500 ⟨"01310100"⟩ 500
      (.ok "\x7b\"localidade\":\"São Paulo\"\x7d") (by decide) (by decide)).1,
   by decide⟩

/-! ### Temperatures -/

/-- `halfAway x` is a nearest integer to `x`, and when two integers are equally
near it is the one farther from zero. -/
theorem halfAway_nearest (x : ℚ) :
    |(halfAway x : ℚ) - x| ≤ 1 / 2 ∧
    (|(halfAway x : ℚ) - x| = 1 / 2 → |x| < |(halfAway x : ℚ)|) := by
  unfold halfAway
  by_cases h : 0 ≤ x
  · simp only [h, if_true]
    have h1 := Int.floor_le (x + 1 / 2)
    have h2 := Int.lt_floor_add_one (x + 1 / 2)
    constructor
    · rw [abs_le]; constructor <;> linarith
    · intro heq
      have hn : (⌊x + 1 / 2⌋ : ℚ) - x = 1 / 2 := by
        rcases abs_eq (by norm_num : (0 : ℚ) ≤ 1 / 2) |>.mp heq with h3 | h3
        · exact h3
        · linarith
      rw [abs_of_nonneg h, abs_of_nonneg (by linarith)]
      linarith
  · simp only [h, if_false]
    have hx : x < 0 := lt_of_not_le h
    have h1 := Int.floor_le (-x + 1 / 2)
    have h2 := Int.lt_floor_add_one (-x + 1 / 2)
    push_cast
    constructor
    · rw [abs_le]; constructor <;> linarith
    · intro heq
      have hn : -(⌊-x + 1 / 2⌋ : ℚ) - x = -(1 / 2) := by
        rcases abs_eq (by norm_num : (0 : ℚ) ≤ 1 / 2) |>.mp heq with h3 | h3
        · linarith
        · exact h3
      rw [abs_of_neg hx, abs_of_nonpos (by linarith)]
      linarith

/-- The specification's rounding of 273.1 K in Celsius. -/
theorem specRound_quaseZero : specRound (2731 / 10 - 27315 / 100) = -1 / 10 := by
  unfold specRound halfAway
  norm_num

set_option maxRecDepth 100000 in
set_option exponentiation.threshold 2000 in
/-- C5, as stated, fails: for the temperature 273.1 K the specification's
formula gives `temp_C = r(273.1 - 273.15) = r(-0.05) = -0.1`, and the handler
answers `temp_C = -0`: in binary64 `(273.1 - 273.15) * 10` is
`-0.49999999999954525`, which `math.Round` takes to `-0`. And for the
temperature `1e308` K the tenfold overflows, the document cannot be encoded,
and the handler writes no body at all. -/
theorem temp_C_counterexample :
    validaCEP "01310100" = true ∧
    (buscaCidade (mundoQuaseZero false) "01310100").1 = .ok { Cidade := "São Paulo" } ∧
    (buscaClima (mundoQuaseZero false) "são paulo").1 =
      .ok { Main := { Temp := F64.ofDecimal false 2731 (-1), TempMin := .zero, TempMax := .zero,
                      Pressao := .zero, Umidade := .zero } } ∧
    (GetWeatherByCep (mundoQuaseZero false) .fresh ⟨"01310100"⟩).1.body =
      [.weather { City := "São Paulo", TempC := .finite true 0 (-1074),
                  TempF := F64.ofDecimal false 319 (-1),
                  TempK := F64.ofDecimal false 2731 (-1) }] ∧
    (GetWeatherByCep (mundoQuaseZero true) .fresh ⟨"01310100"⟩).1.body =
      [.weather { City := "São Paulo", TempC := .finite true 0 (-1074),
                  TempF := F64.ofDecimal false 319 (-1),
                  TempK := F64.ofDecimal false 2731 (-1) }] ∧
    specRound (2731 / 10 - 27315 / 100) = -1 / 10 ∧
    F64.ofRat (-1 / 10) = .finite true 7205759403792794 (-56) ∧
    F64.finite true 0 (-1074) ≠ F64.ofRat (specRound (2731 / 10 - 27315 / 100)) ∧
    (buscaClima mundoTransbordo "são paulo").1 =
      .ok { Main := { Temp := F64.ofDecimal false 1 308, TempMin := .zero, TempMax := .zero,
                      Pressao := .zero, Umidade := .zero } } ∧
    roundTenth (F64.ofDecimal false 1 308) = .inf false ∧
    (GetWeatherByCep mundoTransbordo .fresh ⟨"01310100"⟩).1.body = [] := by
  refine ⟨by decide, by decide, by decide, by decide, by decide, specRound_quaseZero,
    by decide!, ?_, by decide!, by decide!, by decide!⟩
  rw [specRound_quaseZero]
  decide!

/-- The leading bit of a positive number. -/
theorem floorLog2_spec (fuel n : Nat) (hn : 0 < n) (hf : n ≤ fuel) :
    2 ^ floorLog2 fuel n ≤ n ∧ n < 2 ^ (floorLog2 fuel n + 1) := by
  induction fuel generalizing n with
  | zero => omega
  | succ fuel ih =>
    unfold floorLog2
    by_cases h2 : n < 2
    · have : n = 1 := by omega
      simp [h2, this]
    · simp only [h2, if_false]
      have hdiv : 0 < n / 2 := Nat.div_pos (by omega) (by decide)
      have hle : n / 2 ≤ fuel := by omega
      obtain ⟨h1, h3⟩ := ih (n / 2) hdiv hle
      constructor
      · rw [pow_succ]; omega
      · rw [pow_succ]; omega

/-- A positive integer below `2^53` is a binary64 value: rounding it changes
nothing. -/
theorem roundRat_nat (neg : Bool) (p : Nat) (hp : 0 < p) (hlt : p < 2 ^ 53) :
    ∃ m e, roundRat neg p 1 = .finite neg m e ∧ (m : ℚ) * (2 : ℚ) ^ e = p ∧ m < 2 ^ 53 := by
  obtain ⟨hL1, hL2⟩ := floorLog2_spec p p hp (le_refl p)
  set L := floorLog2 p p with hLdef
  have hL53 : L < 53 := by
    by_contra h
    have : 2 ^ 53 ≤ 2 ^ L := Nat.pow_le_pow_right (by decide) (by omega)
    omega
  have h1 : floorLog2 1 1 = 0 := by decide
  have hm53 : p * 2 ^ (52 - L) < 2 ^ 53 := by
    have h2 : (2 : Nat) ^ 53 = 2 ^ (L + 1) * 2 ^ (52 - L) := by
      rw [← pow_add]; congr 1; omega
    rw [h2]
    exact Nat.mul_lt_mul_of_pos_right hL2 (by positivity)
  refine ⟨p * 2 ^ (52 - L), (L : Int) - 52, ?_, ?_, hm53⟩
  · unfold roundRat
    have hp0 : p ≠ 0 := by omega
    have hmax : ((L : Int) - 52) ⊔ -1074 = (L : Int) - 52 := by
      apply max_eq_left; omega
    have htn : ((L : Int) - 52).toNat = 0 := by omega
    have hneg : (-((L : Int) - 52)).toNat = 52 - L := by omega
    have hne : p * 2 ^ (52 - L) ≠ 2 ^ 53 := by omega
    have h971 : ¬ (971 < (L : Int) - 52) := by omega
    simp only [hp0, if_false, h1, ← hLdef, Nat.cast_zero, sub_zero, Int.toNat_ofNat, neg_nonpos,
      Int.toNat_neg_nat, pow_zero, mul_one, one_mul, hL1, if_true, hmax, htn, hneg,
      Nat.mod_one, Nat.div_one, mul_zero, Nat.lt_irrefl, false_or, zero_ne_one, false_and,
      hne, h971]
    have h10 : ¬ ((1 : Nat) < 0 ∨ False) := by simp
    simp only [h10, if_false, hne, h971]
  · have : ((L : Int) - 52) = -((52 - L : Nat) : Int) := by omega
    rw [this, zpow_neg, zpow_natCast]
    push_cast
    field_simp

/-- Rounding a quotient of naturals to the nearest integer, halves up, from the
quotient and the remainder. -/
theorem floor_add_half_aux (d a r : Nat) (hd : 0 < d) (hr : r < d) :
    ⌊((d * a + r : Nat) : ℚ) / d + 1 / 2⌋ = ((if d ≤ 2 * r then a + 1 else a : Nat) : ℤ) := by
  have hdq : (0 : ℚ) < d := by exact_mod_cast hd
  have hrq : (r : ℚ) < d := by exact_mod_cast hr
  have hr0 : (0 : ℚ) ≤ (r : ℚ) := by positivity
  have hval : ((d * a + r : Nat) : ℚ) / d = (a : ℚ) + (r : ℚ) / d := by
    push_cast; field_simp; ring
  rw [Int.floor_eq_iff, hval]
  by_cases h : d ≤ 2 * r
  · have hq : (d : ℚ) ≤ 2 * (r : ℚ) := by exact_mod_cast h
    have h1 : (1 : ℚ) / 2 ≤ (r : ℚ) / d := by
      rw [le_div_iff₀ hdq]; linarith
    have h2 : (r : ℚ) / d < 1 := by
      rw [div_lt_iff₀ hdq]; linarith
    simp only [h, if_true]
    push_cast
    constructor <;> linarith
  · have hq : 2 * (r : ℚ) < (d : ℚ) := by
      have : 2 * r < d := by omega
      exact_mod_cast this
    have h1 : (r : ℚ) / d < 1 / 2 := by
      rw [div_lt_iff₀ hdq]; linarith
    have h2 : (0 : ℚ) ≤ (r : ℚ) / d := by positivity
    simp only [h, if_false]
    push_cast
    constructor <;> linarith

/-- Rounding a quotient of naturals to the nearest integer, halves up. -/
theorem floor_add_half (m d : Nat) (hd : 0 < d) :
    ⌊(m : ℚ) / d + 1 / 2⌋ = ((if d ≤ 2 * (m % d) then m / d + 1 else m / d : Nat) : ℤ) := by
  have h := floor_add_half_aux d (m / d) (m % d) hd (Nat.mod_lt m hd)
  rw [Nat.div_add_mod] at h
  exact h

/-- Rounding halves away from zero is rounding the magnitude halves up and
restoring the sign. -/
theorem halfAway_signed (neg : Bool) (x : ℚ) (q : Nat) (hx : 0 ≤ x)
    (hq : ⌊x + 1 / 2⌋ = (q : ℤ)) :
    ((halfAway ((if neg then -1 else 1) * x) : ℤ) : ℚ) = (if neg then -1 else 1) * (q : ℚ) := by
  cases neg with
  | false =>
    simp only [Bool.false_eq_true, if_false, one_mul, halfAway, hx, if_true, hq]
    push_cast; rfl
  | true =>
    simp only [if_true, neg_mul, one_mul, halfAway]
    by_cases h0 : x = 0
    · subst h0
      have hq0 : (q : ℤ) = 0 := by rw [← hq]; norm_num
      have : q = 0 := by exact_mod_cast hq0
      subst this
      norm_num
    · have hpos : 0 < x := lt_of_le_of_ne hx (Ne.symm h0)
      have hneg : ¬ (0 ≤ -x) := by linarith
      simp only [hneg, if_false, neg_neg, hq]
      push_cast; rfl

/-- What `math.Round` computes: on a finite value with a significand below
`2^53`, the nearest integer to its exact value, halves away from zero, with no
rounding error. -/
theorem round_toRat (neg : Bool) (m : Nat) (e : Int) (hm : m < 2 ^ 53) :
    (F64.round (.finite neg m e)).isFinite = true ∧
    (F64.round (.finite neg m e)).toRat = (halfAway (F64.toRat (.finite neg m e)) : ℚ) := by
  by_cases he : 0 ≤ e
  · have hr : F64.round (.finite neg m e) = .finite neg m e := by simp [F64.round, he]
    rw [hr]
    refine ⟨rfl, ?_⟩
    obtain ⟨k, rfl⟩ := Int.eq_ofNat_of_zero_le he
    have hx : (0 : ℚ) ≤ ((m * 2 ^ k : Nat) : ℚ) := by positivity
    have hq : ⌊((m * 2 ^ k : Nat) : ℚ) + 1 / 2⌋ = ((m * 2 ^ k : Nat) : ℤ) := by
      rw [Int.floor_eq_iff]; push_cast; constructor <;> linarith
    have h := halfAway_signed neg _ _ hx hq
    simp only [F64.toRat, zpow_natCast]
    rw [mul_assoc]
    push_cast at h ⊢
    rw [h]
  · have hk : ∃ k : Nat, e = -((k : Int)) ∧ 0 < k := ⟨(-e).toNat, by omega, by omega⟩
    obtain ⟨k, rfl, hk0⟩ := hk
    have hd : 0 < 2 ^ k := by positivity
    have hx : (0 : ℚ) ≤ (m : ℚ) / ((2 ^ k : Nat) : ℚ) := by positivity
    have hq := floor_add_half m (2 ^ k) hd
    have hsig := halfAway_signed neg _ _ hx hq
    have hval : F64.toRat (.finite neg m (-(k : Int))) =
        (if neg then -1 else 1) * ((m : ℚ) / ((2 ^ k : Nat) : ℚ)) := by
      simp only [F64.toRat, zpow_neg, zpow_natCast]
      push_cast; ring
    rw [hval, hsig]
    have hround : F64.round (.finite neg m (-(k : Int))) =
        roundRat neg (if 2 ^ k ≤ 2 * (m % 2 ^ k) then m / 2 ^ k + 1 else m / 2 ^ k) 1 := by
      have hneg : ¬ (0 ≤ -(k : Int)) := by omega
      simp [F64.round, hneg]
    rw [hround]
    generalize hqdef : (if 2 ^ k ≤ 2 * (m % 2 ^ k) then m / 2 ^ k + 1 else m / 2 ^ k) = q
    have hq53 : q < 2 ^ 53 := by
      have h2 : 2 ≤ 2 ^ k := by
        calc 2 = 2 ^ 1 := by norm_num
          _ ≤ 2 ^ k := Nat.pow_le_pow_right (by decide) hk0
      have hdiv : m / 2 ^ k ≤ m / 2 := Nat.div_le_div_left h2 (by decide)
      have : m / 2 < 2 ^ 52 := by omega
      rw [← hqdef]
      split <;> omega
    by_cases hq0 : q = 0
    · subst hq0
      refine ⟨by simp [roundRat, F64.isFinite], ?_⟩
      simp [roundRat, F64.toRat]
    · obtain ⟨m1, e1, h1, h2, _⟩ := roundRat_nat neg q (by omega) hq53
      rw [h1]
      refine ⟨rfl, ?_⟩
      simp only [F64.toRat]
      rw [mul_assoc, h2]

/-- A power of two with an integer exponent as a quotient of two powers with
natural exponents. -/
theorem two_pow_toNat_div (d : Int) :
    ((2 : ℚ) ^ d.toNat) / (2 : ℚ) ^ (-d).toNat = (2 : ℚ) ^ d := by
  by_cases h : 0 ≤ d
  · obtain ⟨k, rfl⟩ := Int.eq_ofNat_of_zero_le h
    simp
  · have hk : ∃ k : Nat, d = -((k : Int)) := ⟨(-d).toNat, by omega⟩
    obtain ⟨k, rfl⟩ := hk
    simp [zpow_neg]

/-- The exponent `roundRat` takes for the leading bit of `p / q` is large
enough. -/
theorem lead_lt (p q : Nat) (hp : 0 < p) (hq : 0 < q) :
    (p : ℚ) / q < (2 : ℚ) ^
      ((if q * 2 ^ ((floorLog2 p p : Int) - (floorLog2 q q : Int)).toNat ≤
            p * 2 ^ (-((floorLog2 p p : Int) - (floorLog2 q q : Int))).toNat
        then (floorLog2 p p : Int) - (floorLog2 q q : Int)
        else (floorLog2 p p : Int) - (floorLog2 q q : Int) - 1) + 1) := by
  obtain ⟨_, hp2⟩ := floorLog2_spec p p hp (le_refl p)
  obtain ⟨hq1, _⟩ := floorLog2_spec q q hq (le_refl q)
  have hqq : (0 : ℚ) < q := by exact_mod_cast hq
  generalize floorLog2 p p = a at *
  generalize floorLog2 q q = b at *
  rw [div_lt_iff₀ hqq]
  split
  · have h1 : (p : ℚ) < (2 : ℚ) ^ (a + 1) := by exact_mod_cast hp2
    have h2 : (2 : ℚ) ^ b ≤ q := by exact_mod_cast hq1
    have h3 : (2 : ℚ) ^ ((a : Int) - (b : Int) + 1) * (2 : ℚ) ^ b = (2 : ℚ) ^ (a + 1) := by
      rw [← zpow_natCast (2 : ℚ) b, ← zpow_natCast (2 : ℚ) (a + 1), ← zpow_add₀ (by norm_num)]
      congr 1; push_cast; ring
    calc (p : ℚ) < (2 : ℚ) ^ (a + 1) := h1
      _ = (2 : ℚ) ^ ((a : Int) - (b : Int) + 1) * (2 : ℚ) ^ b := h3.symm
      _ ≤ (2 : ℚ) ^ ((a : Int) - (b : Int) + 1) * q :=
        mul_le_mul_of_nonneg_left h2 (by positivity)
  · rename_i hcond
    have hlt : p * 2 ^ (-((a : Int) - (b : Int))).toNat < q * 2 ^ ((a : Int) - (b : Int)).toNat := by
      omega
    have hltq : (p : ℚ) * (2 : ℚ) ^ (-((a : Int) - (b : Int))).toNat <
        (q : ℚ) * (2 : ℚ) ^ ((a : Int) - (b : Int)).toNat := by exact_mod_cast hlt
    have hpow := two_pow_toNat_div ((a : Int) - (b : Int))
    have hA : (0 : ℚ) < (2 : ℚ) ^ (-((a : Int) - (b : Int))).toNat := by positivity
    have hsimp : ((a : Int) - (b : Int) - 1 + 1) = (a : Int) - (b : Int) := by ring
    rw [hsimp, ← hpow, div_mul_eq_mul_div, lt_div_iff₀ hA]
    linarith

/-- The significand before rounding is below `2^53`. -/
theorem quotient_lt (p q : Nat) (hq : 0 < q) (e lead : Int)
    (hlead : (p : ℚ) / q < (2 : ℚ) ^ (lead + 1)) (he : lead - 52 ≤ e) :
    p * 2 ^ (-e).toNat / (q * 2 ^ e.toNat) < 2 ^ 53 := by
  have hqq : (0 : ℚ) < q := by exact_mod_cast hq
  have hden : 0 < q * 2 ^ e.toNat := by positivity
  rw [Nat.div_lt_iff_lt_mul hden]
  have hA : (0 : ℚ) < (2 : ℚ) ^ (-e).toNat := by positivity
  have hB : (0 : ℚ) < (2 : ℚ) ^ e.toNat := by positivity
  have hpow := two_pow_toNat_div e
  have hmono : (2 : ℚ) ^ (lead + 1) ≤ (2 : ℚ) ^ (e + 53) :=
    zpow_le_zpow_right₀ (by norm_num) (by omega)
  have h53 : (2 : ℚ) ^ (e + 53) = (2 : ℚ) ^ e.toNat / (2 : ℚ) ^ (-e).toNat * 2 ^ 53 := by
    rw [hpow, zpow_add₀ (by norm_num)]; norm_num
  have hlt : (p : ℚ) / q < (2 : ℚ) ^ e.toNat / (2 : ℚ) ^ (-e).toNat * 2 ^ 53 := by
    rw [← h53]; exact lt_of_lt_of_le hlead hmono
  rw [div_lt_iff₀ hqq, div_mul_eq_mul_div, div_mul_eq_mul_div, lt_div_iff₀ hA] at hlt
  have hgoal : (p : ℚ) * (2 : ℚ) ^ (-e).toNat < (2 : ℚ) ^ 53 * ((q : ℚ) * (2 : ℚ) ^ e.toNat) := by
    calc (p : ℚ) * (2 : ℚ) ^ (-e).toNat < (2 : ℚ) ^ e.toNat * 2 ^ 53 * q := hlt
      _ = (2 : ℚ) ^ 53 * ((q : ℚ) * (2 : ℚ) ^ e.toNat) := by ring
  exact_mod_cast hgoal

/-- The significand `roundRat` returns is below `2^53`. -/
theorem roundRat_canonical (neg : Bool) (p q : Nat) (hq : 0 < q) (n : Bool) (m : Nat) (e : Int)
    (h : roundRat neg p q = .finite n m e) : m < 2 ^ 53 := by
  unfold roundRat at h
  by_cases hp0 : p = 0
  · simp only [hp0, if_true] at h
    injection h with _ hm _
    rw [← hm]; positivity
  · have hp : 0 < p := Nat.pos_of_ne_zero hp0
    have hlead := lead_lt p q hp hq
    simp only [hp0, if_false] at h
    generalize hL : (if q * 2 ^ ((floorLog2 p p : Int) - (floorLog2 q q : Int)).toNat ≤
            p * 2 ^ (-((floorLog2 p p : Int) - (floorLog2 q q : Int))).toNat
        then (floorLog2 p p : Int) - (floorLog2 q q : Int)
        else (floorLog2 p p : Int) - (floorLog2 q q : Int) - 1) = lead at h hlead
    have hquot := quotient_lt p q hq (max (lead - 52) (-1074)) lead hlead (le_max_left _ _)
    generalize (max (lead - 52) (-1074)) = e0 at h hquot
    generalize p * 2 ^ (-e0).toNat / (q * 2 ^ e0.toNat) = m0 at h hquot
    generalize p * 2 ^ (-e0).toNat % (q * 2 ^ e0.toNat) = r at h
    generalize q * 2 ^ e0.toNat = dn at h
    have hmm : (if dn < 2 * r ∨ 2 * r = dn ∧ m0 % 2 = 1 then m0 + 1 else m0) ≤ m0 + 1 := by
      split <;> omega
    generalize (if dn < 2 * r ∨ 2 * r = dn ∧ m0 % 2 = 1 then m0 + 1 else m0) = mm at h hmm
    by_cases hinf : 971 < (if mm = 2 ^ 53 then e0 + 1 else e0)
    · rw [if_pos hinf] at h; cases h
    · rw [if_neg hinf] at h
      injection h with _ hm _
      rw [← hm]
      split <;> omega

/-- The significand of a finite product is below `2^53`. -/
theorem mul_canonical (x y : F64) (n : Bool) (m : Nat) (e : Int)
    (h : x.mul y = .finite n m e) : m < 2 ^ 53 := by
  cases x with
  | nan => cases y <;> simp [F64.mul] at h
  | inf n1 =>
    cases y with
    | finite n2 m2 e2 => simp only [F64.mul] at h; split at h <;> cases h
    | inf n2 => simp [F64.mul] at h
    | nan => simp [F64.mul] at h
  | finite n1 m1 e1 =>
    cases y with
    | nan => simp [F64.mul] at h
    | inf n2 => simp only [F64.mul] at h; split at h <;> cases h
    | finite n2 m2 e2 =>
      simp only [F64.mul, roundDyadic] at h
      split at h
      · injection h with _ hm _
        rw [← hm]; positivity
      · exact roundRat_canonical _ _ _ (by positivity) n m e h

/-- `math.Round` applied to a finite binary64 product: the result is finite and
is exactly the nearest integer to the product, halves away from zero. -/
theorem round_mul_exact (x y : F64) (hfin : (x.mul y).isFinite = true) :
    ((x.mul y).round).isFinite = true ∧
    ((x.mul y).round).toRat = (halfAway (x.mul y).toRat : ℚ) := by
  cases hxy : x.mul y with
  | finite n m e => exact round_toRat n m e (mul_canonical x y n m e hxy)
  | inf n => rw [hxy] at hfin; cases hfin
  | nan => rw [hxy] at hfin; cases hfin

/-- The conversions on the two temperatures the specification names, whether
or not the multiply-add is fused. -/
theorem conversions_on_scenarios (fused : Bool) :
    roundTenth (convKELtoC (F64.ofDecimal false 30015 (-2))) = F64.ofNat 27 ∧
    roundTenth (convKELtoF fused (F64.ofDecimal false 30015 (-2))) = F64.ofDecimal false 806 (-1) ∧
    roundTenth (F64.ofDecimal false 30015 (-2)) = F64.ofDecimal false 3002 (-1) ∧
    roundTenth (convKELtoC (F64.ofDecimal false 27315 (-2))) = F64.zero ∧
    roundTenth (convKELtoF fused (F64.ofDecimal false 27315 (-2))) = F64.ofNat 32 := by
  cases fused <;> decide!

/-- C5, amended: when validation, `buscaCidade` (city `c`) and `buscaClima`
(temperature `k`, a binary64 value) all succeed and the three rounded
temperatures are finite, the handler answers 200 with content type
`application/json` and a document whose fields are `city = c`,
`temp_C = Round((k - 273.15) * 10) / 10`,
`temp_F = Round(((k - 273.15) * 1.8 + 32) * 10) / 10` and
`temp_K = Round(k * 10) / 10`, every operation being the binary64 one (rounded
to nearest, ties to even; the multiply-add of `temp_F` rounded once when the
compiler fuses it) and `Round` taking the binary64 product, exactly, to the
nearest integer, halves away from zero. For `k = 300.15` the three fields are the
binary64 values of 27, 80.6 and 300.2, and for `k = 273.15` `temp_C` is 0 and
`temp_F` is 32. -/
theorem success_body_binary64 (env : Env) (r : Request) (c : CEP) (clima : Clima)
    (hv : validaCEP r.cep = true) (hc : (buscaCidade env r.cep).1 = .ok c)
    (hw : (buscaClima env (stringsToLower env c.Cidade)).1 = .ok clima) :
    (convKELtoC clima.Main.Temp = clima.Main.Temp.sub (F64.ofDecimal false 27315 (-2)) ∧
     convKELtoF env.fused clima.Main.Temp =
      (if env.fused then
        F64.fma (clima.Main.Temp.sub (F64.ofDecimal false 27315 (-2)))
          (F64.ofDecimal false 18 (-1)) (F64.ofNat 32)
       else ((clima.Main.Temp.sub (F64.ofDecimal false 27315 (-2))).mul
          (F64.ofDecimal false 18 (-1))).add (F64.ofNat 32))) ∧
    ((((convKELtoC clima.Main.Temp).mul (F64.ofNat 10)).round.div (F64.ofNat 10)).isFinite = true →
     (((convKELtoF env.fused clima.Main.Temp).mul (F64.ofNat 10)).round.div
        (F64.ofNat 10)).isFinite = true →
     ((clima.Main.Temp.mul (F64.ofNat 10)).round.div (F64.ofNat 10)).isFinite = true →
      (GetWeatherByCep env .fresh r).1.status = 200 ∧
      (GetWeatherByCep env .fresh r).1.sentHeader "Content-Type" = some "application/json" ∧
      (GetWeatherByCep env .fresh r).1.body =
        [.weather
          { City := c.Cidade,
            TempC := ((convKELtoC clima.Main.Temp).mul (F64.ofNat 10)).round.div (F64.ofNat 10),
            TempF :=
              ((convKELtoF env.fused clima.Main.Temp).mul (F64.ofNat 10)).round.div (F64.ofNat 10),
            TempK := (clima.Main.Temp.mul (F64.ofNat 10)).round.div (F64.ofNat 10) }]) ∧
    (clima.Main.Temp = F64.ofDecimal false 30015 (-2) →
      (GetWeatherByCep env .fresh r).1.body =
        [.weather { City := c.Cidade, TempC := F64.ofNat 27,
                    TempF := F64.ofDecimal false 806 (-1),
                    TempK := F64.ofDecimal false 3002 (-1) }]) ∧
    (clima.Main.Temp = F64.ofDecimal false 27315 (-2) →
      ∃ tempK, (GetWeatherByCep env .fresh r).1.body =
        [.weather { City := c.Cidade, TempC := F64.zero, TempF := F64.ofNat 32,
                    TempK := tempK }]) ∧
    (∀ x : F64, (x.mul (F64.ofNat 10)).isFinite = true →
      ((x.mul (F64.ofNat 10)).round).isFinite = true ∧
      ((x.mul (F64.ofNat 10)).round).toRat = (halfAway (x.mul (F64.ofNat 10)).toRat : ℚ)) := by
  rw [handler_ok env .fresh r c clima hv hc hw]
  refine ⟨⟨rfl, rfl⟩, ?_, ?_, ?_, fun x hx => round_mul_exact x (F64.ofNat 10) hx⟩
  · intro h1 h2 h3
    have h1r : (roundTenth (convKELtoC clima.Main.Temp)).isFinite = true := h1
    have h2r : (roundTenth (convKELtoF env.fused clima.Main.Temp)).isFinite = true := h2
    have h3r : (roundTenth clima.Main.Temp).isFinite = true := h3
    simp only [encodeWeather, h1r, h2r, h3r, Bool.and_self, if_true]
    exact ⟨rfl, rfl, rfl⟩
  · intro hk
    obtain ⟨e1, e2, e3, _, _⟩ := conversions_on_scenarios env.fused
    rw [hk, e1, e2, e3]
    rfl
  · intro hk
    obtain ⟨_, _, _, e4, e5⟩ := conversions_on_scenarios env.fused
    have e6 : roundTenth (F64.ofDecimal false 27315 (-2)) = F64.ofDecimal false 2732 (-1) := by
      decide!
    rw [hk, e4, e5, e6]
    exact ⟨_, rfl⟩

set_option maxRecDepth 100000 in
/-- C5, amended, at the input of scenario A: the city is `São Paulo`, the
weather service reports 300.15 K, and the answer is 200 with the temperatures
27, 80.6 and 300.2. -/
theorem success_body_binary64_witness :
    validaCEP "01310100" = true ∧
    (buscaCidade (mundoCenarios false) "01310100").1 = .ok { Cidade := "São Paulo" } ∧
    (buscaClima (mundoCenarios false) "são paulo").1 =
      .ok { Main := { Temp := F64.ofDecimal false 30015 (-2), TempMin := .zero,
                      TempMax := .zero, Pressao := .zero, Umidade := .zero } } ∧
    (GetWeatherByCep (mundoCenarios false) .fresh ⟨"01310100"⟩).1.status = 200 ∧
    (GetWeatherByCep (mundoCenarios false) .fresh ⟨"01310100"⟩).1.body =
      [.weather { City := "São Paulo", TempC := F64.ofNat 27,
                  TempF := F64.ofDecimal false 806 (-1),
                  TempK := F64.ofDecimal false 3002 (-1) }] :=
  ⟨by decide, by decide, by decide,
   ((success_body_binary64 (mundoCenarios false) ⟨"01310100"⟩ { Cidade := "São Paulo" }
      { Main := { Temp := F64.ofDecimal false 30015 (-2), TempMin := .zero,
                  TempMax := .zero, Pressao := .zero, Umidade := .zero } }
      (by decide) (by decide) (by decide)).2.1 (by decide) (by decide) (by decide)).1,
   (success_body_binary64 (mundoCenarios false) ⟨"01310100"⟩ { Cidade := "São Paulo" }
      { Main := { Temp := F64.ofDecimal false 30015 (-2), TempMin := .zero,
                  TempMax := .zero, Pressao := .zero, Umidade := .zero } }
      (by decide) (by decide) (by decide)).2.2.1 rfl⟩

end Servicob
